import Mathlib

/-!
Verification development for the boids flocking simulation
(`boids_algorithm.py`).

The per-frame flocking algorithm is shallowly embedded here:

* Python integers become `ℤ`/`ℕ`; Python floats become `ℝ` (the idealized
  real-number semantics of the arithmetic the source writes).
* The module-level lists `boid_locations` / `boid_headings`, together with
  each sprite's `prev_vec` attribute, become the record `BoidState`.
  Positions are integers throughout the source: they are initialised by
  `randint` and every write stores a `pygame` rect coordinate, which is an
  integer (float assignments are truncated toward zero, modelled by
  `pytrunc`).
* The `randint` draws made inside `Boid.update` are passed to the embedded
  `update` as explicit arguments (`j1`, `j2` for the two steering jitter
  draws, `r` for the heading jitter of the isolated branch); the inductive
  predicate `Reachable` quantifies over all draws in the ranges the source
  uses.
* The steering computation reads only `boid_locations`, `boid_headings`
  and `prev_vec`, but the position commit of `update` (lines 227-235)
  goes through the sprite rect: `rotate_boid` re-centres `self.rect` on
  the rotated sprite image's bounding box (whose size comes from
  `pygame.transform.rotate`), and `boid_locations[i]` is then set to
  `rect.x/y + velocity`.  Each boid's rect (position and bounding-box
  size) is therefore part of the state (`BoidState.rects`), and the size
  `pygame.transform.rotate` gives the rotated 10 x 15 surface — external
  library behaviour — is a parameter of the development (`RotateModel`),
  constrained to pygame's documented behaviour: exact dimensions on
  90-degree multiples, and bounding-box sizes between 10 and 19 pixels
  (the box of a rotated 10 x 15 rectangle has sides
  `10|cos a| + 15|sin a|` and `10|sin a| + 15|cos a|`, which lie between
  10 and `sqrt 325 < 19`).
* `cohesion` performs `x_sum /= len(local_boids)`, which raises
  `ZeroDivisionError` on an empty neighbour list; it therefore returns an
  `Option`, with `none` for the raising case.
-/

namespace Boids

/-! ## Constants (source lines 8-18) -/

def WIDTH : ℤ := 1024

def HEIGHT : ℤ := 576

def NUM_BOIDS : ℕ := 40

def BOID_VIEWRANGE_PX : ℤ := 50

noncomputable def VELOCITY : ℝ := 10

noncomputable def ALIGN_WEIGHT : ℝ := 0.5

noncomputable def COHESION_WEIGHT : ℝ := 0.3

noncomputable def SEPARATION_WEIGHT : ℝ := 0.4

noncomputable def RAD_TO_DEG : ℝ := 180 / Real.pi

noncomputable def DEG_TO_RAD : ℝ := Real.pi / 180

/-! ## Python numeric primitives -/

/-- Conversion of a Python float to an int as `pygame` rect coordinate
assignment performs it: truncation toward zero. -/
noncomputable def pytrunc (x : ℝ) : ℤ := if 0 ≤ x then ⌊x⌋ else ⌈x⌉

/-- Python float `x % m`: `x - m * floor (x / m)`. -/
noncomputable def pymod (x m : ℝ) : ℝ := x - m * ⌊x / m⌋

/-- Python `math.atan2 y x` over the reals (no signed zeros). -/
noncomputable def atan2 (y x : ℝ) : ℝ :=
  if 0 < x then Real.arctan (y / x)
  else if x < 0 then
    (if 0 ≤ y then Real.arctan (y / x) + Real.pi
     else Real.arctan (y / x) - Real.pi)
  else
    (if 0 < y then Real.pi / 2 else if y < 0 then -(Real.pi / 2) else 0)

/-! ## `Boid.normalize_vector` (source lines 57-67) -/

/-- `normalize_vector(x, y, len_desired)`: scales `(x, y)` to length
`len_desired`, returning `(0, 0)` when the input length is zero. -/
noncomputable def normalize_vector (x y len_desired : ℝ) : ℝ × ℝ :=
  let length := Real.sqrt (x ^ 2 + y ^ 2)
  if length = 0 then (0, 0)
  else (x * len_desired / length, y * len_desired / length)

/-! ## `Boid.find_local_boids` (source lines 79-91) -/

/-- `find_local_boids(my_index)`: all indices `i` of the location list with
`dist_sq < BOID_VIEWRANGE_PX**2 and i != boid_no`, in loop order.  The
source measures distances from `boid_locations[my_index]` and excludes
`self.boid_no`; `update` calls it with both equal. -/
def find_local_boids (locations : List (ℤ × ℤ)) (boid_no my_index : ℕ) :
    List ℕ :=
  (List.range locations.length).filter fun i =>
    decide (((locations.getD i (0, 0)).1 - (locations.getD my_index (0, 0)).1) ^ 2
        + ((locations.getD i (0, 0)).2 - (locations.getD my_index (0, 0)).2) ^ 2
        < BOID_VIEWRANGE_PX ^ 2)
      && decide (i ≠ boid_no)

/-! ## `Boid.alignment` (source lines 93-104) -/

/-- `alignment(local_boids)`: accumulates
`x_sum += sin(heading*DEG_TO_RAD)`, `y_sum += -cos(heading*DEG_TO_RAD)`
over the neighbour list and normalizes the sums to length 1. -/
noncomputable def alignment (headings : List ℝ) (local_boids : List ℕ) :
    ℝ × ℝ :=
  let sums := local_boids.foldl
    (fun (p : ℝ × ℝ) i =>
      (p.1 + Real.sin (headings.getD i 0 * DEG_TO_RAD),
       p.2 + -Real.cos (headings.getD i 0 * DEG_TO_RAD)))
    (0, 0)
  normalize_vector sums.1 sums.2 1

/-! ## `Boid.cohesion` (source lines 106-129) -/

/-- `cohesion(local_boids)`: sums the neighbours' (integer) positions,
divides by the neighbour count, and normalizes the vector from the subject
to that mean position.  `x_sum /= len(local_boids)` raises
`ZeroDivisionError` when the list is empty, hence the `Option`. -/
noncomputable def cohesion (locations : List (ℤ × ℤ)) (boid_no : ℕ)
    (local_boids : List ℕ) : Option (ℝ × ℝ) :=
  if local_boids.length = 0 then none
  else
    let sums := local_boids.foldl
      (fun (p : ℤ × ℤ) i =>
        (p.1 + (locations.getD i (0, 0)).1, p.2 + (locations.getD i (0, 0)).2))
      (0, 0)
    let xmean : ℝ := (sums.1 : ℝ) / (local_boids.length : ℝ)
    let ymean : ℝ := (sums.2 : ℝ) / (local_boids.length : ℝ)
    let dx := xmean - ((locations.getD boid_no (0, 0)).1 : ℝ)
    let dy := ymean - ((locations.getD boid_no (0, 0)).2 : ℝ)
    some (normalize_vector dx dy 1)

/-! ## `Boid.separation` (source lines 131-158) -/

/-- `separation(local_boids)`: accumulates, per neighbour, the displacement
from the neighbour to the subject divided by the squared distance, falling
back to the raw displacement when the squared distance is zero, and
normalizes the sums to length 1. -/
noncomputable def separation (locations : List (ℤ × ℤ)) (boid_no : ℕ)
    (local_boids : List ℕ) : ℝ × ℝ :=
  let sums := local_boids.foldl
    (fun (p : ℝ × ℝ) i =>
      let dx : ℤ := (locations.getD boid_no (0, 0)).1 - (locations.getD i (0, 0)).1
      let dy : ℤ := (locations.getD boid_no (0, 0)).2 - (locations.getD i (0, 0)).2
      let mag_sq : ℤ := dx ^ 2 + dy ^ 2
      if mag_sq ≠ 0 then (p.1 + (dx : ℝ) / (mag_sq : ℝ), p.2 + (dy : ℝ) / (mag_sq : ℝ))
      else (p.1 + (dx : ℝ), p.2 + (dy : ℝ)))
    (0, 0)
  normalize_vector sums.1 sums.2 1

/-! ## `Boid.bounce_at_boundary` (source lines 160-175) -/

/-- `bounce_at_boundary(boid_no, xvec, yvec)`: computes the position the
velocity would produce and independently negates the X component when the
new X leaves `[0, WIDTH - 20]` and the Y component when the new Y leaves
`[0, HEIGHT - 20]`. -/
noncomputable def bounce_at_boundary (locations : List (ℤ × ℤ)) (boid_no : ℕ)
    (xvec yvec : ℝ) : ℝ × ℝ :=
  let new_x : ℝ := ((locations.getD boid_no (0, 0)).1 : ℝ) + xvec
  let new_y : ℝ := ((locations.getD boid_no (0, 0)).2 : ℝ) + yvec
  (if new_x < 0 ∨ new_x > (WIDTH : ℝ) - 20 then -xvec else xvec,
   if new_y < 0 ∨ new_y > (HEIGHT : ℝ) - 20 then -yvec else yvec)

/-! ## `Boid.smoothing` (source lines 177-186) -/

/-- `smoothing(vecx, vecy)`: exponential smoothing with `alpha = 0.35`
against the boid's previous velocity vector. -/
noncomputable def smoothing (prev_vec : ℝ × ℝ) (vecx vecy : ℝ) : ℝ × ℝ :=
  let alpha : ℝ := 0.35
  (vecx * alpha + (1 - alpha) * prev_vec.1,
   vecy * alpha + (1 - alpha) * prev_vec.2)

/-! ## The sprite rect and `pygame.transform.rotate` (source lines 33-36,
69-77) -/

/-- A `pygame` rect: the top-left corner and the size of the sprite's
current (rotated) image.  `rect.x`/`rect.y` are integers. -/
structure SpriteRect where
  x : ℤ
  y : ℤ
  w : ℕ
  h : ℕ

/-- The one piece of external-library behaviour the position commit
depends on: the size of the surface `pygame.transform.rotate` returns for
the 10 x 15 boid sprite at a given rotation angle (in degrees,
counterclockwise — `rotate_boid(heading)` passes `-heading`).  It is kept
as a parameter constrained to pygame's documented behaviour:

* on exact multiples of 90 degrees the image is rotated without padding,
  so the dimensions are `(10, 15)` at 0 or 180 degrees and `(15, 10)` at
  90 or 270 degrees (modulo 360);
* in general the returned surface is the bounding box of the rotated
  10 x 15 rectangle, whose sides `10|cos a| + 15|sin a|` and
  `10|sin a| + 15|cos a|` always lie between 10 and `sqrt 325 < 19`. -/
structure RotateModel where
  size : ℝ → ℕ × ℕ
  size_w_lb : ∀ a : ℝ, 10 ≤ (size a).1
  size_w_ub : ∀ a : ℝ, (size a).1 ≤ 19
  size_h_lb : ∀ a : ℝ, 10 ≤ (size a).2
  size_h_ub : ∀ a : ℝ, (size a).2 ≤ 19
  size_q0 : ∀ a : ℝ, (∃ k : ℤ, a = 360 * (k : ℝ)) → size a = (10, 15)
  size_q90 : ∀ a : ℝ, (∃ k : ℤ, a = 90 + 360 * (k : ℝ)) → size a = (15, 10)
  size_q180 : ∀ a : ℝ, (∃ k : ℤ, a = 180 + 360 * (k : ℝ)) → size a = (10, 15)
  size_q270 : ∀ a : ℝ, (∃ k : ℤ, a = 270 + 360 * (k : ℝ)) → size a = (15, 10)

/-! ## World state and `Boid.update` (source lines 188-236) -/

/-- The shared per-agent state: the module-level lists `boid_locations`
and `boid_headings`, and each sprite's `prev_vec` attribute and current
`rect` gathered into lists. -/
structure BoidState where
  locations : List (ℤ × ℤ)
  headings : List ℝ
  prev_vecs : List (ℝ × ℝ)
  rects : List SpriteRect

/-- The rect `Boid.__init__` leaves for a boid at `(x, y)` with heading
`h`: the 10 x 15 image rect is placed at `(x, y)` (centre
`(x + 5, y + 7)`, integer division), then `rotate_boid(h)` replaces it by
the rect of the image rotated by `-h`, re-centred on the same centre
(`get_rect(center=...)` sets the corner to centre minus half the new
size, integer division). -/
def mkInitRect (R : RotateModel) (p : ℤ × ℤ) (h : ℤ) : SpriteRect :=
  { x := p.1 + 5 - ((R.size (-(h : ℝ))).1 : ℤ) / 2
    y := p.2 + 7 - ((R.size (-(h : ℝ))).2 : ℤ) / 2
    w := (R.size (-(h : ℝ))).1
    h := (R.size (-(h : ℝ))).2 }

/-- The state produced by constructing the boids (`Boid.__init__`,
source lines 27-55): integer positions and headings from `randint`,
`prev_vec = (0, 0)` for every boid, and each sprite's rect re-centred on
its randomized heading's rotated image. -/
def stateOfInit (R : RotateModel) (locs : List (ℤ × ℤ)) (hds : List ℤ) :
    BoidState :=
  { locations := locs
    headings := hds.map fun h => (h : ℝ)
    prev_vecs := List.replicate NUM_BOIDS ((0 : ℝ), (0 : ℝ))
    rects := (locs.zip hds).map fun p => mkInitRect R p.1 p.2 }

/-- The steering vector of `update` before normalization (source lines
192-213): the weighted rule combination plus jitter when neighbours exist,
otherwise the unit vector of the jittered current heading. -/
noncomputable def steeringRaw (s : BoidState) (i : ℕ) (j1 j2 r : ℤ) : ℝ × ℝ :=
  let local_boids := find_local_boids s.locations i i
  if local_boids.length ≠ 0 then
    let av := alignment s.headings local_boids
    let cv := (cohesion s.locations i local_boids).getD (0, 0)
    let sv := separation s.locations i local_boids
    (av.1 * ALIGN_WEIGHT + cv.1 * COHESION_WEIGHT + sv.1 * SEPARATION_WEIGHT
        + (j1 : ℝ) / 500,
     av.2 * ALIGN_WEIGHT + cv.2 * COHESION_WEIGHT + sv.2 * SEPARATION_WEIGHT
        + (j2 : ℝ) / 500)
  else
    let rh := s.headings.getD i 0 + (r : ℝ)
    (Real.sin (rh * DEG_TO_RAD), -Real.cos (rh * DEG_TO_RAD))

/-- The velocity vector `update` commits (source lines 216-221): normalize
to `VELOCITY`, smooth against `prev_vec`, normalize again, then bounce at
the boundary. -/
noncomputable def committedVec (s : BoidState) (i : ℕ) (j1 j2 r : ℤ) : ℝ × ℝ :=
  let sv := steeringRaw s i j1 j2 r
  let v1 := normalize_vector sv.1 sv.2 VELOCITY
  let v2 := smoothing (s.prev_vecs.getD i (0, 0)) v1.1 v1.2
  let v3 := normalize_vector v2.1 v2.2 VELOCITY
  bounce_at_boundary s.locations i v3.1 v3.2

/-- The heading `update` writes (source line 224):
`(atan2(vx, -vy) * RAD_TO_DEG) % 360` of the committed velocity. -/
noncomputable def newHeading (s : BoidState) (i : ℕ) (j1 j2 r : ℤ) : ℝ :=
  pymod (atan2 (committedVec s i j1 j2 r).1 (-(committedVec s i j1 j2 r).2)
    * RAD_TO_DEG) 360

/-- The size of the sprite image after `update`'s
`rotate_boid(new_heading)` call (line 227): `pygame.transform.rotate` is
invoked with `-new_heading`. -/
noncomputable def rotatedSize (R : RotateModel) (s : BoidState) (i : ℕ)
    (j1 j2 r : ℤ) : ℕ × ℕ :=
  R.size (-(newHeading s i j1 j2 r))

/-- The position `update` stores (source lines 227-235): `rotate_boid`
re-centres the rect on the rotated image (corner = old centre minus half
the new size, integer division), then `rect.x += vx` / `rect.y += vy`
truncate to integers, and `boid_locations[i]` is set to the rect corner. -/
noncomputable def committedPos (R : RotateModel) (s : BoidState) (i : ℕ)
    (j1 j2 r : ℤ) : ℤ × ℤ :=
  let rc := s.rects.getD i ⟨0, 0, 10, 15⟩
  let sz := rotatedSize R s i j1 j2 r
  let rx := rc.x + (rc.w : ℤ) / 2 - (sz.1 : ℤ) / 2
  let ry := rc.y + (rc.h : ℤ) / 2 - (sz.2 : ℤ) / 2
  (pytrunc ((rx : ℝ) + (committedVec s i j1 j2 r).1),
   pytrunc ((ry : ℝ) + (committedVec s i j1 j2 r).2))

/-- `Boid.update` for boid `i` with jitter draws `j1`, `j2` (the two
`randint(-100, 100)` of the neighbour branch) and `r` (the
`randint(-10, 10)` of the isolated branch): commits the bounced velocity
as `prev_vec`, writes the new heading, rotates the sprite (re-centring
its rect), moves the rect by the committed velocity and stores the rect
corner as the boid's position (source lines 223-236). -/
noncomputable def update (R : RotateModel) (s : BoidState) (i : ℕ)
    (j1 j2 r : ℤ) : BoidState :=
  { locations := s.locations.set i (committedPos R s i j1 j2 r)
    headings := s.headings.set i (newHeading s i j1 j2 r)
    prev_vecs := s.prev_vecs.set i (committedVec s i j1 j2 r)
    rects := s.rects.set i
      ⟨(committedPos R s i j1 j2 r).1, (committedPos R s i j1 j2 r).2,
       (rotatedSize R s i j1 j2 r).1, (rotatedSize R s i j1 j2 r).2⟩ }

/-- The states the simulation can reach: an initial state built by the
constructors (positions in `[0, WIDTH] × [0, HEIGHT]`, headings in
`[0, 360]`, all integer `randint` outcomes), followed by any sequence of
single-boid updates with jitter draws in the source's `randint` ranges. -/
inductive Reachable (R : RotateModel) : BoidState → Prop
  | init (locs : List (ℤ × ℤ)) (hds : List ℤ)
      (hlen : locs.length = NUM_BOIDS) (hlen2 : hds.length = NUM_BOIDS)
      (hloc : ∀ p ∈ locs, 0 ≤ p.1 ∧ p.1 ≤ WIDTH ∧ 0 ≤ p.2 ∧ p.2 ≤ HEIGHT)
      (hhd : ∀ h ∈ hds, 0 ≤ h ∧ h ≤ 360) :
      Reachable R (stateOfInit R locs hds)
  | step (s : BoidState) (i : ℕ) (j1 j2 r : ℤ) (hs : Reachable R s)
      (hi : i < NUM_BOIDS)
      (hj1 : -100 ≤ j1 ∧ j1 ≤ 100) (hj2 : -100 ≤ j2 ∧ j2 ≤ 100)
      (hr : -10 ≤ r ∧ r ≤ 10) :
      Reachable R (update R s i j1 j2 r)

/-- One whole frame as the source executes it (`boids.update()`): every
boid's `update` run sequentially in index order against the shared,
in-place mutated state.  `draws` lists each boid's `(j1, j2, r)` jitter. -/
noncomputable def frameSeq (R : RotateModel) (s : BoidState)
    (draws : List (ℤ × ℤ × ℤ)) : BoidState :=
  (List.range NUM_BOIDS).foldl
    (fun st i =>
      update R st i (draws.getD i (0, 0, 0)).1 (draws.getD i (0, 0, 0)).2.1
        (draws.getD i (0, 0, 0)).2.2)
    s

/-- Modelled from the spec: the double-buffered frame execution its section
5 prescribes — every boid's update is computed from the immutable frame
t-1 state `s` and all results are committed together. -/
noncomputable def frameSnapshot (R : RotateModel) (s : BoidState)
    (draws : List (ℤ × ℤ × ℤ)) : BoidState :=
  { locations := (List.range NUM_BOIDS).map fun i =>
      (update R s i (draws.getD i (0, 0, 0)).1 (draws.getD i (0, 0, 0)).2.1
        (draws.getD i (0, 0, 0)).2.2).locations.getD i (0, 0)
    headings := (List.range NUM_BOIDS).map fun i =>
      (update R s i (draws.getD i (0, 0, 0)).1 (draws.getD i (0, 0, 0)).2.1
        (draws.getD i (0, 0, 0)).2.2).headings.getD i 0
    prev_vecs := (List.range NUM_BOIDS).map fun i =>
      (update R s i (draws.getD i (0, 0, 0)).1 (draws.getD i (0, 0, 0)).2.1
        (draws.getD i (0, 0, 0)).2.2).prev_vecs.getD i (0, 0)
    rects := (List.range NUM_BOIDS).map fun i =>
      (update R s i (draws.getD i (0, 0, 0)).1 (draws.getD i (0, 0, 0)).2.1
        (draws.getD i (0, 0, 0)).2.2).rects.getD i ⟨0, 0, 10, 15⟩ }

open Classical in
noncomputable def r0Size (a : ℝ) : ℕ × ℕ :=
  if (∃ k : ℤ, a = 90 + 360 * (k : ℝ)) ∨ (∃ k : ℤ, a = 270 + 360 * (k : ℝ))
  then (15, 10) else (10, 15)

/-- One admissible rotate-size model: dimensions swap exactly on the
90-degree and 270-degree families and stay `(10, 15)` otherwise.  It
instantiates the closed counterexample and witness statements. -/
noncomputable def R0 : RotateModel where
  size := r0Size
  size_w_lb a := by unfold r0Size; split <;> norm_num
  size_w_ub a := by unfold r0Size; split <;> norm_num
  size_h_lb a := by unfold r0Size; split <;> norm_num
  size_h_ub a := by unfold r0Size; split <;> norm_num
  size_q0 a h := by
    obtain ⟨k, rfl⟩ := h
    unfold r0Size
    rw [if_neg]
    rintro (⟨m, hm⟩ | ⟨m, hm⟩)
    · have : (360 * (k - m) : ℤ) = (90 : ℤ) := by
        have : ((360 * (k - m) : ℤ) : ℝ) = ((90 : ℤ) : ℝ) := by
          push_cast
          linarith
        exact_mod_cast this
      omega
    · have : (360 * (k - m) : ℤ) = (270 : ℤ) := by
        have : ((360 * (k - m) : ℤ) : ℝ) = ((270 : ℤ) : ℝ) := by
          push_cast
          linarith
        exact_mod_cast this
      omega
  size_q90 a h := by
    obtain ⟨k, rfl⟩ := h
    unfold r0Size
    rw [if_pos (Or.inl ⟨k, rfl⟩)]
  size_q180 a h := by
    obtain ⟨k, rfl⟩ := h
    unfold r0Size
    rw [if_neg]
    rintro (⟨m, hm⟩ | ⟨m, hm⟩)
    · have : (360 * (k - m) : ℤ) = (-90 : ℤ) := by
        have : ((360 * (k - m) : ℤ) : ℝ) = ((-90 : ℤ) : ℝ) := by
          push_cast
          linarith
        exact_mod_cast this
      omega
    · have : (360 * (k - m) : ℤ) = (90 : ℤ) := by
        have : ((360 * (k - m) : ℤ) : ℝ) = ((90 : ℤ) : ℝ) := by
          push_cast
          linarith
        exact_mod_cast this
      omega
  size_q270 a h := by
    obtain ⟨k, rfl⟩ := h
    unfold r0Size
    rw [if_pos (Or.inr ⟨k, rfl⟩)]

/-! ## Concrete scenario states

Each scenario is an initial configuration the constructors can produce
(`randint` positions in `[0, WIDTH] × [0, HEIGHT]`, headings in
`[0, 360]`), chosen so that the relevant update evaluates in closed form. -/

/-- Scenario for claim C2: boid 0 (heading 90) and boid 1 (heading 270) are 45 px
apart, inside view range; all other boids are far away.  Boid 0's update
moves it out of boid 1's view range, so the sequential in-place execution
and the snapshot execution give boid 1 different neighbour sets. -/
def c2Locs : List (ℤ × ℤ) :=
  [(200, 300), (245, 300)] ++ List.replicate 38 (900, 0)

def c2Hds : List ℤ := [90, 270] ++ List.replicate 38 0

def c2State (R : RotateModel) : BoidState := stateOfInit R c2Locs c2Hds

def c2Draws : List (ℤ × ℤ × ℤ) := List.replicate NUM_BOIDS (0, 0, 0)

/-- Scenario for claim C3: an isolated boid at x = 1020 (a legal `randint` position,
inside `[0, WIDTH]` but beyond `WIDTH - 20`) heading 270 (left). -/
def c3Locs : List (ℤ × ℤ) := [(1020, 300)] ++ List.replicate 39 (0, 0)

def c3Hds : List ℤ := [270] ++ List.replicate 39 0

def c3State (R : RotateModel) : BoidState := stateOfInit R c3Locs c3Hds

def c4Locs : List (ℤ × ℤ) := [(100, 100)]

def c6Locs : List (ℤ × ℤ) := [(1010, 300)]

def c10State : BoidState :=
  ⟨[(1, 2), (3, 4)], [0, 90], [(0, 0), (0, 0)],
   [⟨1, 2, 10, 15⟩, ⟨3, 4, 10, 15⟩]⟩

/-- The rect-location coupling the constructors establish and every update
preserves: all state lists have length `NUM_BOIDS`, every rect's dimensions
are sizes `pygame.transform.rotate` can return for the 10 x 15 sprite, and
each rect corner sits within 4 px of the stored location on each axis (the
re-centering offsets `5 - w / 2` and `7 - h / 2` after `__init__`, and zero
after an update, which stores the corner itself into `boid_locations`). -/
def RectCoupled (s : BoidState) : Prop :=
  s.locations.length = NUM_BOIDS ∧ s.rects.length = NUM_BOIDS ∧
    ∀ i, i < NUM_BOIDS →
      (10 ≤ (s.rects.getD i ⟨0, 0, 10, 15⟩).w
        ∧ (s.rects.getD i ⟨0, 0, 10, 15⟩).w ≤ 19
        ∧ 10 ≤ (s.rects.getD i ⟨0, 0, 10, 15⟩).h
        ∧ (s.rects.getD i ⟨0, 0, 10, 15⟩).h ≤ 19
        ∧ |(s.rects.getD i ⟨0, 0, 10, 15⟩).x
            - (s.locations.getD i (0, 0)).1| ≤ 4
        ∧ |(s.rects.getD i ⟨0, 0, 10, 15⟩).y
            - (s.locations.getD i (0, 0)).2| ≤ 4)

/-! ## List access lemmas -/

theorem getD_set_self {α : Type} (l : List α) (i : ℕ) (a d : α)
    (h : i < l.length) : (l.set i a).getD i d = a := by
  induction l generalizing i with
  | nil => simp at h
  | cons b t ih =>
    cases i with
    | zero => simp
    | succ n =>
      simp only [List.set, List.getD_cons_succ]
      exact ih n (by simpa using h)

theorem getD_set_ne {α : Type} (l : List α) (i j : ℕ) (a d : α)
    (h : j ≠ i) : (l.set i a).getD j d = l.getD j d := by
  induction l generalizing i j with
  | nil => simp
  | cons b t ih =>
    cases i with
    | zero =>
      cases j with
      | zero => exact absurd rfl h
      | succ m => simp
    | succ n =>
      cases j with
      | zero => simp
      | succ m =>
        simp only [List.set, List.getD_cons_succ]
        exact ih n m (fun hc => h (by omega))

theorem getD_replicate {α : Type} (n i : ℕ) (a d : α) (h : i < n) :
    (List.replicate n a).getD i d = a := by
  induction n generalizing i with
  | zero => omega
  | succ m ih =>
    cases i with
    | zero => simp [List.replicate]
    | succ k =>
      simp only [List.replicate, List.getD_cons_succ]
      exact ih k (by omega)

/-! ## Evaluation lemmas for `normalize_vector` -/

theorem normalize_vector_zero (L : ℝ) : normalize_vector 0 0 L = (0, 0) := by
  simp [normalize_vector]

theorem normalize_vector_xpos (x L : ℝ) (hx : 0 < x) :
    normalize_vector x 0 L = (L, 0) := by
  have hs : Real.sqrt (x ^ 2 + 0 ^ 2) = x := by
    rw [show x ^ 2 + (0 : ℝ) ^ 2 = x ^ 2 by ring, Real.sqrt_sq hx.le]
  have h1 : x * L / x = L := by field_simp
  simp only [normalize_vector, hs, if_neg (ne_of_gt hx), h1]
  norm_num

theorem normalize_vector_xneg (x L : ℝ) (hx : x < 0) :
    normalize_vector x 0 L = (-L, 0) := by
  have hs : Real.sqrt (x ^ 2 + 0 ^ 2) = -x := by
    rw [show x ^ 2 + (0 : ℝ) ^ 2 = (-x) ^ 2 by ring, Real.sqrt_sq (by linarith)]
  have hne : (-x : ℝ) ≠ 0 := by linarith
  have h1 : x * L / -x = -L := by rw [div_eq_iff hne]; ring
  simp only [normalize_vector, hs, if_neg hne, h1]
  norm_num

theorem normalize_vector_mag (x y L : ℝ) :
    normalize_vector x y L = (0, 0) ∨
      (normalize_vector x y L).1 ^ 2 + (normalize_vector x y L).2 ^ 2 = L ^ 2 := by
  by_cases h : Real.sqrt (x ^ 2 + y ^ 2) = 0
  · left; simp [normalize_vector, h]
  · right
    have hnn : (0 : ℝ) ≤ x ^ 2 + y ^ 2 := by positivity
    have hsq : Real.sqrt (x ^ 2 + y ^ 2) ^ 2 = x ^ 2 + y ^ 2 := Real.sq_sqrt hnn
    have hd : x ^ 2 + y ^ 2 ≠ 0 := by
      intro hc
      exact h (by rw [hc, Real.sqrt_zero])
    simp only [normalize_vector, if_neg h]
    field_simp
    ring

/-! ## Trigonometric values at the degree headings of the scenarios -/

theorem sin_deg_zero : Real.sin (0 * DEG_TO_RAD) = 0 := by simp

theorem cos_deg_zero : Real.cos (0 * DEG_TO_RAD) = 1 := by simp

theorem sin_deg_90 : Real.sin ((90 : ℝ) * DEG_TO_RAD) = 1 := by
  rw [show (90 : ℝ) * DEG_TO_RAD = Real.pi / 2 by rw [DEG_TO_RAD]; ring]
  exact Real.sin_pi_div_two

theorem cos_deg_90 : Real.cos ((90 : ℝ) * DEG_TO_RAD) = 0 := by
  rw [show (90 : ℝ) * DEG_TO_RAD = Real.pi / 2 by rw [DEG_TO_RAD]; ring]
  exact Real.cos_pi_div_two

theorem sin_deg_180 : Real.sin ((180 : ℝ) * DEG_TO_RAD) = 0 := by
  rw [show (180 : ℝ) * DEG_TO_RAD = Real.pi by rw [DEG_TO_RAD]; ring]
  exact Real.sin_pi

theorem cos_deg_180 : Real.cos ((180 : ℝ) * DEG_TO_RAD) = -1 := by
  rw [show (180 : ℝ) * DEG_TO_RAD = Real.pi by rw [DEG_TO_RAD]; ring]
  exact Real.cos_pi

theorem sin_deg_270 : Real.sin ((270 : ℝ) * DEG_TO_RAD) = -1 := by
  rw [show (270 : ℝ) * DEG_TO_RAD = Real.pi + Real.pi / 2 by rw [DEG_TO_RAD]; ring]
  rw [Real.sin_add]
  simp

theorem cos_deg_270 : Real.cos ((270 : ℝ) * DEG_TO_RAD) = 0 := by
  rw [show (270 : ℝ) * DEG_TO_RAD = Real.pi + Real.pi / 2 by rw [DEG_TO_RAD]; ring]
  rw [Real.cos_add]
  simp

/-! ## `pytrunc` lemmas -/

theorem pytrunc_intCast (n : ℤ) : pytrunc (n : ℝ) = n := by
  unfold pytrunc
  split
  · exact Int.floor_intCast n
  · exact Int.ceil_intCast n

theorem pytrunc_bounds (z : ℝ) (lo hi : ℤ) (h1 : (lo : ℝ) ≤ z)
    (h2 : z ≤ (hi : ℝ)) : lo ≤ pytrunc z ∧ pytrunc z ≤ hi := by
  unfold pytrunc
  split
  · exact ⟨Int.le_floor.mpr h1, by exact_mod_cast (Int.floor_le z).trans h2⟩
  · exact ⟨by exact_mod_cast h1.trans (Int.le_ceil z), Int.ceil_le.mpr h2⟩

/-! ## `bounce_at_boundary` shape lemmas -/

theorem bounce_cases (locs : List (ℤ × ℤ)) (b : ℕ) (x y : ℝ) :
    ((bounce_at_boundary locs b x y).1 = x ∨ (bounce_at_boundary locs b x y).1 = -x)
    ∧ ((bounce_at_boundary locs b x y).2 = y ∨
        (bounce_at_boundary locs b x y).2 = -y) := by
  simp only [bounce_at_boundary]
  constructor
  · split
    · right; rfl
    · left; rfl
  · split
    · right; rfl
    · left; rfl

theorem bounce_sq (locs : List (ℤ × ℤ)) (b : ℕ) (x y : ℝ) :
    (bounce_at_boundary locs b x y).1 ^ 2 + (bounce_at_boundary locs b x y).2 ^ 2
      = x ^ 2 + y ^ 2 := by
  obtain ⟨hx, hy⟩ := bounce_cases locs b x y
  rcases hx with h | h <;> rcases hy with h2 | h2 <;> rw [h, h2] <;> ring

theorem bounce_normalize_mag (locs : List (ℤ × ℤ)) (b : ℕ) (x y L : ℝ) :
    bounce_at_boundary locs b (normalize_vector x y L).1 (normalize_vector x y L).2
        = (0, 0) ∨
      (bounce_at_boundary locs b (normalize_vector x y L).1
            (normalize_vector x y L).2).1 ^ 2
        + (bounce_at_boundary locs b (normalize_vector x y L).1
            (normalize_vector x y L).2).2 ^ 2 = L ^ 2 := by
  rcases normalize_vector_mag x y L with h0 | hm
  · left
    have h1 : (normalize_vector x y L).1 = 0 := by rw [h0]
    have h2 : (normalize_vector x y L).2 = 0 := by rw [h0]
    rw [h1, h2, Prod.ext_iff]
    obtain ⟨hx, hy⟩ := bounce_cases locs b 0 0
    simp only [neg_zero, or_self] at hx hy
    exact ⟨by simpa using hx, by simpa using hy⟩
  · right
    rw [bounce_sq]
    exact hm

/-! ## The committed velocity's magnitude -/

theorem committedVec_mag (s : BoidState) (i : ℕ) (j1 j2 r : ℤ) :
    committedVec s i j1 j2 r = (0, 0) ∨
      (committedVec s i j1 j2 r).1 ^ 2 + (committedVec s i j1 j2 r).2 ^ 2
        = VELOCITY ^ 2 := by
  simp only [committedVec]
  exact bounce_normalize_mag s.locations i _ _ VELOCITY

/-! ## Projections of `update` -/

theorem update_locations_getD_ne (R : RotateModel) (s : BoidState) (i : ℕ)
    (j1 j2 r : ℤ) (j : ℕ) (h : j ≠ i) :
    (update R s i j1 j2 r).locations.getD j (0, 0)
      = s.locations.getD j (0, 0) := by
  simp only [update]
  exact getD_set_ne _ _ _ _ _ h

theorem update_headings_getD_ne (R : RotateModel) (s : BoidState) (i : ℕ)
    (j1 j2 r : ℤ) (j : ℕ) (h : j ≠ i) :
    (update R s i j1 j2 r).headings.getD j 0 = s.headings.getD j 0 := by
  simp only [update]
  exact getD_set_ne _ _ _ _ _ h

theorem update_prev_vecs_getD_ne (R : RotateModel) (s : BoidState) (i : ℕ)
    (j1 j2 r : ℤ) (j : ℕ) (h : j ≠ i) :
    (update R s i j1 j2 r).prev_vecs.getD j (0, 0)
      = s.prev_vecs.getD j (0, 0) := by
  simp only [update]
  exact getD_set_ne _ _ _ _ _ h

theorem update_rects_getD_ne (R : RotateModel) (s : BoidState) (i : ℕ)
    (j1 j2 r : ℤ) (j : ℕ) (h : j ≠ i) :
    (update R s i j1 j2 r).rects.getD j ⟨0, 0, 10, 15⟩
      = s.rects.getD j ⟨0, 0, 10, 15⟩ := by
  simp only [update]
  exact getD_set_ne _ _ _ _ _ h

theorem update_locations_getD_self (R : RotateModel) (s : BoidState) (i : ℕ)
    (j1 j2 r : ℤ) (h : i < s.locations.length) :
    (update R s i j1 j2 r).locations.getD i (0, 0)
      = committedPos R s i j1 j2 r := by
  simp only [update]
  exact getD_set_self _ _ _ _ h

theorem update_rects_getD_self (R : RotateModel) (s : BoidState) (i : ℕ)
    (j1 j2 r : ℤ) (h : i < s.rects.length) :
    (update R s i j1 j2 r).rects.getD i ⟨0, 0, 10, 15⟩
      = ⟨(committedPos R s i j1 j2 r).1, (committedPos R s i j1 j2 r).2,
         (rotatedSize R s i j1 j2 r).1, (rotatedSize R s i j1 j2 r).2⟩ := by
  simp only [update]
  exact getD_set_self _ _ _ _ h

theorem update_prev_vecs_getD_self (R : RotateModel) (s : BoidState) (i : ℕ)
    (j1 j2 r : ℤ) (h : i < s.prev_vecs.length) :
    (update R s i j1 j2 r).prev_vecs.getD i (0, 0)
      = committedVec s i j1 j2 r := by
  simp only [update]
  exact getD_set_self _ _ _ _ h

/-! ## More list lemmas -/

theorem getD_replicate_self {α : Type} (n i : ℕ) (a : α) :
    (List.replicate n a).getD i a = a := by
  induction n generalizing i with
  | zero => simp
  | succ m ih =>
    cases i with
    | zero => simp [List.replicate]
    | succ k =>
      simp only [List.replicate, List.getD_cons_succ]
      exact ih k

theorem getD_map_range {α : Type} (n i : ℕ) (f : ℕ → α) (d : α) (h : i < n) :
    ((List.range n).map f).getD i d = f i := by
  rw [List.getD_eq_getElem?_getD, List.getElem?_map, List.getElem?_range h]
  rfl

theorem headings_getD (l : List ℤ) (i : ℕ) :
    (l.map fun h => (h : ℝ)).getD i 0 = ((l.getD i 0 : ℤ) : ℝ) := by
  induction l generalizing i with
  | nil => simp
  | cons a t ih =>
    cases i with
    | zero => simp
    | succ k =>
      simp only [List.map_cons, List.getD_cons_succ]
      exact ih k

theorem foldl_add_pair {β : Type} [AddCommMonoid β] (f g : ℕ → β)
    (l : List ℕ) (a b : β) :
    l.foldl (fun p i => (p.1 + f i, p.2 + g i)) (a, b)
      = (a + (l.map f).sum, b + (l.map g).sum) := by
  induction l generalizing a b with
  | nil => simp
  | cons x t ih => simp [ih, add_assoc]

/-! ## A further projection of `update` and access to the initial rects -/

theorem update_locations_eq (R : RotateModel) (s : BoidState) (i : ℕ)
    (j1 j2 r : ℤ) :
    (update R s i j1 j2 r).locations
      = s.locations.set i (committedPos R s i j1 j2 r) := rfl

theorem getD_zip_map {α β γ : Type} (f : α → β → γ) (l1 : List α)
    (l2 : List β) (i : ℕ) (d1 : α) (d2 : β) (dg : γ)
    (h1 : i < l1.length) (h2 : i < l2.length) :
    ((l1.zip l2).map fun p => f p.1 p.2).getD i dg
      = f (l1.getD i d1) (l2.getD i d2) := by
  induction l1 generalizing l2 i with
  | nil => simp at h1
  | cons a t ih =>
    cases l2 with
    | nil => simp at h2
    | cons b u =>
      cases i with
      | zero => simp
      | succ k =>
        simp only [List.zip_cons_cons, List.map_cons, List.getD_cons_succ]
        exact ih u k (by simpa using h1) (by simpa using h2)

theorem pytrunc_eval (x : ℝ) (n : ℤ) (h : x = (n : ℝ)) : pytrunc x = n := by
  rw [h, pytrunc_intCast]

theorem committedPos_eval (R : RotateModel) (s : BoidState) (i : ℕ)
    (j1 j2 r : ℤ) (rx ry : ℤ) (v : ℝ × ℝ)
    (hrx : (s.rects.getD i ⟨0, 0, 10, 15⟩).x
        + ((s.rects.getD i ⟨0, 0, 10, 15⟩).w : ℤ) / 2
        - ((rotatedSize R s i j1 j2 r).1 : ℤ) / 2 = rx)
    (hry : (s.rects.getD i ⟨0, 0, 10, 15⟩).y
        + ((s.rects.getD i ⟨0, 0, 10, 15⟩).h : ℤ) / 2
        - ((rotatedSize R s i j1 j2 r).2 : ℤ) / 2 = ry)
    (hv : committedVec s i j1 j2 r = v) :
    committedPos R s i j1 j2 r
      = (pytrunc ((rx : ℝ) + v.1), pytrunc ((ry : ℝ) + v.2)) := by
  simp only [committedPos, hv]
  rw [hrx, hry]

/-! ## Claim C4 : the rules on an empty neighbour set -/

/-- Claim C4, counterexample: `cohesion` on an empty neighbour set does not
return the zero vector — it raises `ZeroDivisionError` (modelled as `none`),
because `x_sum /= len(local_boids)` divides by zero. -/
theorem c4_counterexample : cohesion c4Locs 0 [] = none := by
  simp [cohesion]

/-- Claim C4, amended: `alignment` and `separation` return the zero vector
on an empty neighbour set; `cohesion` raises a division-by-zero error on it
(the source only ever calls `cohesion` under the guard
`len(local_boids) != 0`). -/
theorem c4_empty_rules (hds : List ℝ) (locs : List (ℤ × ℤ)) (b : ℕ) :
    alignment hds [] = (0, 0) ∧ separation locs b [] = (0, 0)
      ∧ cohesion locs b [] = none := by
  refine ⟨?_, ?_, by simp [cohesion]⟩
  · simp only [alignment, List.foldl_nil]
    exact normalize_vector_zero 1
  · simp only [separation, List.foldl_nil]
    exact normalize_vector_zero 1

/-! ## Claim C6 : the boundary handler's thresholds -/

/-- Claim C6, counterexample: at position `(1010, 300)` with proposed
velocity `(1, 0)` the code flips the X component (since
`1011 > WIDTH - 20 = 1004`), although the proposed X position `1011` lies
inside `[0, WIDTH - 10]` — the bound the claim states with the agent's
visual width of 10 px (`pygame.Surface([10, 15])`), under which the
velocity should come back unchanged. -/
theorem c6_counterexample :
    bounce_at_boundary c6Locs 0 1 0 = (-1, 0)
    ∧ (0 : ℝ) ≤ ((c6Locs.getD 0 (0, 0)).1 : ℝ) + 1
    ∧ ((c6Locs.getD 0 (0, 0)).1 : ℝ) + 1 ≤ (WIDTH : ℝ) - 10
    ∧ ((-1 : ℝ), (0 : ℝ)) ≠ ((1 : ℝ), (0 : ℝ)) := by
  refine ⟨?_, by norm_num [c6Locs], by norm_num [c6Locs, WIDTH], by norm_num⟩
  simp only [bounce_at_boundary]
  norm_num [c6Locs, WIDTH, HEIGHT]

/-- Claim C6, amended: the boundary handler independently inverts the X
component exactly when `position.x + velocity.x` falls outside
`[0, WIDTH - 20]` and the Y component exactly when
`position.y + velocity.y` falls outside `[0, HEIGHT - 20]`: the margin is
the fixed constant 20 on both axes, not the sprite's 10 x 15 dimensions.
In particular a move crossing only the right wall comes back with the X
component sign-flipped and the Y component unchanged. -/
theorem c6_bounce_amended (locs : List (ℤ × ℤ)) (b : ℕ) (x y : ℝ) :
    ((((locs.getD b (0, 0)).1 : ℝ) + x < 0
        ∨ ((locs.getD b (0, 0)).1 : ℝ) + x > (WIDTH : ℝ) - 20)
      → (bounce_at_boundary locs b x y).1 = -x)
    ∧ ((0 ≤ ((locs.getD b (0, 0)).1 : ℝ) + x
        ∧ ((locs.getD b (0, 0)).1 : ℝ) + x ≤ (WIDTH : ℝ) - 20)
      → (bounce_at_boundary locs b x y).1 = x)
    ∧ ((((locs.getD b (0, 0)).2 : ℝ) + y < 0
        ∨ ((locs.getD b (0, 0)).2 : ℝ) + y > (HEIGHT : ℝ) - 20)
      → (bounce_at_boundary locs b x y).2 = -y)
    ∧ ((0 ≤ ((locs.getD b (0, 0)).2 : ℝ) + y
        ∧ ((locs.getD b (0, 0)).2 : ℝ) + y ≤ (HEIGHT : ℝ) - 20)
      → (bounce_at_boundary locs b x y).2 = y) := by
  simp only [bounce_at_boundary]
  refine ⟨fun h => ?_, fun h => ?_, fun h => ?_, fun h => ?_⟩
  · simp only [if_pos h]
  · rw [if_neg]
    push_neg
    exact h
  · simp only [if_pos h]
  · rw [if_neg]
    push_neg
    exact h

/-! ## Claim C7 : the neighbour finder -/

/-- Claim C7: `j` is returned by the neighbour finder for agent `i` exactly
when `j` indexes an agent other than `i` whose squared distance to agent
`i` is strictly below the squared view radius; in particular `i` itself is
never returned and squared distance exactly `BOID_VIEWRANGE_PX ^ 2` is
excluded. -/
theorem c7_find_local_boids (locs : List (ℤ × ℤ)) (i j : ℕ) :
    j ∈ find_local_boids locs i i ↔
      j < locs.length ∧ j ≠ i
        ∧ ((locs.getD j (0, 0)).1 - (locs.getD i (0, 0)).1) ^ 2
            + ((locs.getD j (0, 0)).2 - (locs.getD i (0, 0)).2) ^ 2
            < BOID_VIEWRANGE_PX ^ 2 := by
  simp only [find_local_boids, List.mem_filter, List.mem_range,
    Bool.and_eq_true, decide_eq_true_eq]
  tauto

/-! ## Claim C8 : safe normalization -/

/-- Claim C8: safe-normalize maps the zero vector to the zero vector, and
maps any nonzero vector `(x, y)` with target length `L > 0` to a vector of
magnitude `L` that is a positive multiple of `(x, y)` (same direction);
with `L = 1` the result is a unit vector. -/
theorem c8_normalize_vector (x y L : ℝ) (h : ¬(x = 0 ∧ y = 0)) (hL : 0 < L) :
    normalize_vector 0 0 L = (0, 0)
    ∧ Real.sqrt ((normalize_vector x y L).1 ^ 2 + (normalize_vector x y L).2 ^ 2) = L
    ∧ ∃ c : ℝ, 0 < c ∧ (normalize_vector x y L).1 = c * x
        ∧ (normalize_vector x y L).2 = c * y := by
  have hxy : x ≠ 0 ∨ y ≠ 0 := by tauto
  have hpos : 0 < x ^ 2 + y ^ 2 := by
    rcases hxy with hx | hy
    · have : 0 < x ^ 2 := by positivity
      nlinarith [sq_nonneg y]
    · have : 0 < y ^ 2 := by positivity
      nlinarith [sq_nonneg x]
  have hs : 0 < Real.sqrt (x ^ 2 + y ^ 2) := Real.sqrt_pos.mpr hpos
  have hsne : Real.sqrt (x ^ 2 + y ^ 2) ≠ 0 := ne_of_gt hs
  have hsq : Real.sqrt (x ^ 2 + y ^ 2) ^ 2 = x ^ 2 + y ^ 2 :=
    Real.sq_sqrt (le_of_lt hpos)
  refine ⟨normalize_vector_zero L, ?_, ?_⟩
  · simp only [normalize_vector, if_neg hsne]
    have : (x * L / Real.sqrt (x ^ 2 + y ^ 2)) ^ 2
        + (y * L / Real.sqrt (x ^ 2 + y ^ 2)) ^ 2 = L ^ 2 := by
      field_simp
      ring
    rw [this, Real.sqrt_sq hL.le]
  · refine ⟨L / Real.sqrt (x ^ 2 + y ^ 2), div_pos hL hs, ?_, ?_⟩
    · simp only [normalize_vector, if_neg hsne]
      ring
    · simp only [normalize_vector, if_neg hsne]
      ring

/-- Claim C8, witness at `(x, y) = (3, 4)`, `L = 1`. -/
theorem c8_normalize_vector_witness :
    normalize_vector 0 0 1 = (0, 0)
    ∧ Real.sqrt ((normalize_vector 3 4 1).1 ^ 2 + (normalize_vector 3 4 1).2 ^ 2) = 1
    ∧ ∃ c : ℝ, 0 < c ∧ (normalize_vector 3 4 1).1 = c * 3
        ∧ (normalize_vector 3 4 1).2 = c * 4 :=
  c8_normalize_vector 3 4 1 (by norm_num) (by norm_num)

/-! ## Claim C9 : the boundary handler only flips signs -/

/-- Claim C9: each component of the boundary handler's output equals the
corresponding input component up to sign, hence the output's Euclidean
magnitude equals the input's. -/
theorem c9_bounce_components (locs : List (ℤ × ℤ)) (b : ℕ) (x y : ℝ) :
    ((bounce_at_boundary locs b x y).1 = x ∨ (bounce_at_boundary locs b x y).1 = -x)
    ∧ ((bounce_at_boundary locs b x y).2 = y
        ∨ (bounce_at_boundary locs b x y).2 = -y)
    ∧ Real.sqrt ((bounce_at_boundary locs b x y).1 ^ 2
          + (bounce_at_boundary locs b x y).2 ^ 2)
        = Real.sqrt (x ^ 2 + y ^ 2) := by
  obtain ⟨hx, hy⟩ := bounce_cases locs b x y
  exact ⟨hx, hy, by rw [bounce_sq]⟩

/-! ## Claim C10 : update touches only its own index -/

/-- Claim C10: one call to agent `i`'s update leaves every other agent's
stored position, heading and previous velocity unchanged. -/
theorem c10_update_frame_effect (R : RotateModel) (s : BoidState) (i : ℕ)
    (j1 j2 r : ℤ) (j : ℕ) (h : j ≠ i) :
    (update R s i j1 j2 r).locations.getD j (0, 0) = s.locations.getD j (0, 0)
    ∧ (update R s i j1 j2 r).headings.getD j 0 = s.headings.getD j 0
    ∧ (update R s i j1 j2 r).prev_vecs.getD j (0, 0)
        = s.prev_vecs.getD j (0, 0) :=
  ⟨update_locations_getD_ne R s i j1 j2 r j h,
   update_headings_getD_ne R s i j1 j2 r j h,
   update_prev_vecs_getD_ne R s i j1 j2 r j h⟩

/-- Claim C10, witness: boid 1's update leaves boid 0's entries unchanged
in a concrete two-boid state. -/
theorem c10_update_frame_effect_witness :
    (update R0 c10State 1 0 0 0).locations.getD 0 (0, 0)
        = c10State.locations.getD 0 (0, 0)
    ∧ (update R0 c10State 1 0 0 0).headings.getD 0 0 = c10State.headings.getD 0 0
    ∧ (update R0 c10State 1 0 0 0).prev_vecs.getD 0 (0, 0)
        = c10State.prev_vecs.getD 0 (0, 0) :=
  c10_update_frame_effect R0 c10State 1 0 0 0 0 (by decide)

/-! ## Claim C5 : the separation rule's formula -/

/-- Claim C5: the separation rule returns the safe-normalization of the
sum, over all neighbours, of the displacement from the neighbour to the
subject divided by the squared distance, where a neighbour at squared
distance exactly zero contributes the raw un-divided displacement instead
(first equation) — and that raw fallback term is the zero vector, so the
sum may equally be written with a zero term there (second equation); no
division by zero occurs. -/
theorem c5_separation_formula (locs : List (ℤ × ℤ)) (b : ℕ) (l : List ℕ) :
    separation locs b l
      = normalize_vector
          ((l.map fun i =>
            if ((locs.getD b (0, 0)).1 - (locs.getD i (0, 0)).1) ^ 2
                + ((locs.getD b (0, 0)).2 - (locs.getD i (0, 0)).2) ^ 2 ≠ 0 then
              (((locs.getD b (0, 0)).1 - (locs.getD i (0, 0)).1 : ℤ) : ℝ)
                / ((((locs.getD b (0, 0)).1 - (locs.getD i (0, 0)).1) ^ 2
                    + ((locs.getD b (0, 0)).2 - (locs.getD i (0, 0)).2) ^ 2 : ℤ) : ℝ)
            else (((locs.getD b (0, 0)).1 - (locs.getD i (0, 0)).1 : ℤ) : ℝ)).sum)
          ((l.map fun i =>
            if ((locs.getD b (0, 0)).1 - (locs.getD i (0, 0)).1) ^ 2
                + ((locs.getD b (0, 0)).2 - (locs.getD i (0, 0)).2) ^ 2 ≠ 0 then
              (((locs.getD b (0, 0)).2 - (locs.getD i (0, 0)).2 : ℤ) : ℝ)
                / ((((locs.getD b (0, 0)).1 - (locs.getD i (0, 0)).1) ^ 2
                    + ((locs.getD b (0, 0)).2 - (locs.getD i (0, 0)).2) ^ 2 : ℤ) : ℝ)
            else (((locs.getD b (0, 0)).2 - (locs.getD i (0, 0)).2 : ℤ) : ℝ)).sum)
          1
    ∧ separation locs b l
      = normalize_vector
          ((l.map fun i =>
            if ((locs.getD b (0, 0)).1 - (locs.getD i (0, 0)).1) ^ 2
                + ((locs.getD b (0, 0)).2 - (locs.getD i (0, 0)).2) ^ 2 ≠ 0 then
              (((locs.getD b (0, 0)).1 - (locs.getD i (0, 0)).1 : ℤ) : ℝ)
                / ((((locs.getD b (0, 0)).1 - (locs.getD i (0, 0)).1) ^ 2
                    + ((locs.getD b (0, 0)).2 - (locs.getD i (0, 0)).2) ^ 2 : ℤ) : ℝ)
            else 0).sum)
          ((l.map fun i =>
            if ((locs.getD b (0, 0)).1 - (locs.getD i (0, 0)).1) ^ 2
                + ((locs.getD b (0, 0)).2 - (locs.getD i (0, 0)).2) ^ 2 ≠ 0 then
              (((locs.getD b (0, 0)).2 - (locs.getD i (0, 0)).2 : ℤ) : ℝ)
                / ((((locs.getD b (0, 0)).1 - (locs.getD i (0, 0)).1) ^ 2
                    + ((locs.getD b (0, 0)).2 - (locs.getD i (0, 0)).2) ^ 2 : ℤ) : ℝ)
            else 0).sum)
          1 := by
  have hmain : separation locs b l
      = normalize_vector
          ((l.map fun i =>
            if ((locs.getD b (0, 0)).1 - (locs.getD i (0, 0)).1) ^ 2
                + ((locs.getD b (0, 0)).2 - (locs.getD i (0, 0)).2) ^ 2 ≠ 0 then
              (((locs.getD b (0, 0)).1 - (locs.getD i (0, 0)).1 : ℤ) : ℝ)
                / ((((locs.getD b (0, 0)).1 - (locs.getD i (0, 0)).1) ^ 2
                    + ((locs.getD b (0, 0)).2 - (locs.getD i (0, 0)).2) ^ 2 : ℤ) : ℝ)
            else (((locs.getD b (0, 0)).1 - (locs.getD i (0, 0)).1 : ℤ) : ℝ)).sum)
          ((l.map fun i =>
            if ((locs.getD b (0, 0)).1 - (locs.getD i (0, 0)).1) ^ 2
                + ((locs.getD b (0, 0)).2 - (locs.getD i (0, 0)).2) ^ 2 ≠ 0 then
              (((locs.getD b (0, 0)).2 - (locs.getD i (0, 0)).2 : ℤ) : ℝ)
                / ((((locs.getD b (0, 0)).1 - (locs.getD i (0, 0)).1) ^ 2
                    + ((locs.getD b (0, 0)).2 - (locs.getD i (0, 0)).2) ^ 2 : ℤ) : ℝ)
            else (((locs.getD b (0, 0)).2 - (locs.getD i (0, 0)).2 : ℤ) : ℝ)).sum)
          1 := by
    simp only [separation]
    rw [show (fun (p : ℝ × ℝ) i =>
        let dx : ℤ := (locs.getD b (0, 0)).1 - (locs.getD i (0, 0)).1
        let dy : ℤ := (locs.getD b (0, 0)).2 - (locs.getD i (0, 0)).2
        let mag_sq : ℤ := dx ^ 2 + dy ^ 2
        if mag_sq ≠ 0 then
          (p.1 + (dx : ℝ) / (mag_sq : ℝ), p.2 + (dy : ℝ) / (mag_sq : ℝ))
        else (p.1 + (dx : ℝ), p.2 + (dy : ℝ)))
      = fun (p : ℝ × ℝ) i =>
        (p.1 + (if ((locs.getD b (0, 0)).1 - (locs.getD i (0, 0)).1) ^ 2
              + ((locs.getD b (0, 0)).2 - (locs.getD i (0, 0)).2) ^ 2 ≠ 0 then
            (((locs.getD b (0, 0)).1 - (locs.getD i (0, 0)).1 : ℤ) : ℝ)
              / ((((locs.getD b (0, 0)).1 - (locs.getD i (0, 0)).1) ^ 2
                  + ((locs.getD b (0, 0)).2 - (locs.getD i (0, 0)).2) ^ 2 : ℤ) : ℝ)
          else (((locs.getD b (0, 0)).1 - (locs.getD i (0, 0)).1 : ℤ) : ℝ)),
         p.2 + (if ((locs.getD b (0, 0)).1 - (locs.getD i (0, 0)).1) ^ 2
              + ((locs.getD b (0, 0)).2 - (locs.getD i (0, 0)).2) ^ 2 ≠ 0 then
            (((locs.getD b (0, 0)).2 - (locs.getD i (0, 0)).2 : ℤ) : ℝ)
              / ((((locs.getD b (0, 0)).1 - (locs.getD i (0, 0)).1) ^ 2
                  + ((locs.getD b (0, 0)).2 - (locs.getD i (0, 0)).2) ^ 2 : ℤ) : ℝ)
          else (((locs.getD b (0, 0)).2 - (locs.getD i (0, 0)).2 : ℤ) : ℝ)))
      from funext fun p => funext fun i => by
        by_cases h : ((locs.getD b (0, 0)).1 - (locs.getD i (0, 0)).1) ^ 2
            + ((locs.getD b (0, 0)).2 - (locs.getD i (0, 0)).2) ^ 2 ≠ 0
        · simp only [if_pos h]
        · simp only [if_neg h]]
    rw [foldl_add_pair]
    simp
  refine ⟨hmain, ?_⟩
  rw [hmain]
  have hx : (l.map fun i =>
      if ((locs.getD b (0, 0)).1 - (locs.getD i (0, 0)).1) ^ 2
          + ((locs.getD b (0, 0)).2 - (locs.getD i (0, 0)).2) ^ 2 ≠ 0 then
        (((locs.getD b (0, 0)).1 - (locs.getD i (0, 0)).1 : ℤ) : ℝ)
          / ((((locs.getD b (0, 0)).1 - (locs.getD i (0, 0)).1) ^ 2
              + ((locs.getD b (0, 0)).2 - (locs.getD i (0, 0)).2) ^ 2 : ℤ) : ℝ)
      else (((locs.getD b (0, 0)).1 - (locs.getD i (0, 0)).1 : ℤ) : ℝ))
      = l.map fun i =>
      if ((locs.getD b (0, 0)).1 - (locs.getD i (0, 0)).1) ^ 2
          + ((locs.getD b (0, 0)).2 - (locs.getD i (0, 0)).2) ^ 2 ≠ 0 then
        (((locs.getD b (0, 0)).1 - (locs.getD i (0, 0)).1 : ℤ) : ℝ)
          / ((((locs.getD b (0, 0)).1 - (locs.getD i (0, 0)).1) ^ 2
              + ((locs.getD b (0, 0)).2 - (locs.getD i (0, 0)).2) ^ 2 : ℤ) : ℝ)
      else 0 := by
    refine List.map_congr_left fun i hi => ?_
    by_cases h : ((locs.getD b (0, 0)).1 - (locs.getD i (0, 0)).1) ^ 2
        + ((locs.getD b (0, 0)).2 - (locs.getD i (0, 0)).2) ^ 2 ≠ 0
    · simp only [if_pos h]
    · simp only [if_neg h]
      push_neg at h
      have hdx : (locs.getD b (0, 0)).1 - (locs.getD i (0, 0)).1 = 0 := by
        nlinarith [sq_nonneg ((locs.getD b (0, 0)).1 - (locs.getD i (0, 0)).1),
          sq_nonneg ((locs.getD b (0, 0)).2 - (locs.getD i (0, 0)).2)]
      rw [hdx]
      norm_num
  have hy : (l.map fun i =>
      if ((locs.getD b (0, 0)).1 - (locs.getD i (0, 0)).1) ^ 2
          + ((locs.getD b (0, 0)).2 - (locs.getD i (0, 0)).2) ^ 2 ≠ 0 then
        (((locs.getD b (0, 0)).2 - (locs.getD i (0, 0)).2 : ℤ) : ℝ)
          / ((((locs.getD b (0, 0)).1 - (locs.getD i (0, 0)).1) ^ 2
              + ((locs.getD b (0, 0)).2 - (locs.getD i (0, 0)).2) ^ 2 : ℤ) : ℝ)
      else (((locs.getD b (0, 0)).2 - (locs.getD i (0, 0)).2 : ℤ) : ℝ))
      = l.map fun i =>
      if ((locs.getD b (0, 0)).1 - (locs.getD i (0, 0)).1) ^ 2
          + ((locs.getD b (0, 0)).2 - (locs.getD i (0, 0)).2) ^ 2 ≠ 0 then
        (((locs.getD b (0, 0)).2 - (locs.getD i (0, 0)).2 : ℤ) : ℝ)
          / ((((locs.getD b (0, 0)).1 - (locs.getD i (0, 0)).1) ^ 2
              + ((locs.getD b (0, 0)).2 - (locs.getD i (0, 0)).2) ^ 2 : ℤ) : ℝ)
      else 0 := by
    refine List.map_congr_left fun i hi => ?_
    by_cases h : ((locs.getD b (0, 0)).1 - (locs.getD i (0, 0)).1) ^ 2
        + ((locs.getD b (0, 0)).2 - (locs.getD i (0, 0)).2) ^ 2 ≠ 0
    · simp only [if_pos h]
    · simp only [if_neg h]
      push_neg at h
      have hdy : (locs.getD b (0, 0)).2 - (locs.getD i (0, 0)).2 = 0 := by
        nlinarith [sq_nonneg ((locs.getD b (0, 0)).1 - (locs.getD i (0, 0)).1),
          sq_nonneg ((locs.getD b (0, 0)).2 - (locs.getD i (0, 0)).2)]
      rw [hdy]
      norm_num
  rw [hx, hy]

/-! ## Branch lemmas for `steeringRaw` and `bounce_at_boundary` -/

theorem steering_isolated (s : BoidState) (i : ℕ) (j1 j2 r : ℤ)
    (hfind : find_local_boids s.locations i i = []) :
    steeringRaw s i j1 j2 r
      = (Real.sin ((s.headings.getD i 0 + (r : ℝ)) * DEG_TO_RAD),
         -Real.cos ((s.headings.getD i 0 + (r : ℝ)) * DEG_TO_RAD)) := by
  simp only [steeringRaw, hfind, List.length_nil]
  simp

theorem steering_neighbors (s : BoidState) (i : ℕ) (j1 j2 r : ℤ) (l : List ℕ)
    (hfind : find_local_boids s.locations i i = l) (hne : l ≠ []) :
    steeringRaw s i j1 j2 r
      = ((alignment s.headings l).1 * ALIGN_WEIGHT
            + ((cohesion s.locations i l).getD (0, 0)).1 * COHESION_WEIGHT
            + (separation s.locations i l).1 * SEPARATION_WEIGHT + (j1 : ℝ) / 500,
         (alignment s.headings l).2 * ALIGN_WEIGHT
            + ((cohesion s.locations i l).getD (0, 0)).2 * COHESION_WEIGHT
            + (separation s.locations i l).2 * SEPARATION_WEIGHT
            + (j2 : ℝ) / 500) := by
  simp only [steeringRaw, hfind]
  rw [if_pos]
  intro h
  exact hne (List.length_eq_zero.mp h)

theorem bounce_interior (locs : List (ℤ × ℤ)) (b : ℕ) (x y : ℝ)
    (h1 : 0 ≤ ((locs.getD b (0, 0)).1 : ℝ) + x)
    (h2 : ((locs.getD b (0, 0)).1 : ℝ) + x ≤ (WIDTH : ℝ) - 20)
    (h3 : 0 ≤ ((locs.getD b (0, 0)).2 : ℝ) + y)
    (h4 : ((locs.getD b (0, 0)).2 : ℝ) + y ≤ (HEIGHT : ℝ) - 20) :
    bounce_at_boundary locs b x y = (x, y) := by
  simp only [bounce_at_boundary]
  rw [if_neg (by push_neg; exact ⟨h1, h2⟩), if_neg (by push_neg; exact ⟨h3, h4⟩)]

theorem bounce_flip_right (locs : List (ℤ × ℤ)) (b : ℕ) (x y : ℝ)
    (hx : ((locs.getD b (0, 0)).1 : ℝ) + x > (WIDTH : ℝ) - 20)
    (h3 : 0 ≤ ((locs.getD b (0, 0)).2 : ℝ) + y)
    (h4 : ((locs.getD b (0, 0)).2 : ℝ) + y ≤ (HEIGHT : ℝ) - 20) :
    bounce_at_boundary locs b x y = (-x, y) := by
  simp only [bounce_at_boundary]
  rw [if_pos (Or.inr hx), if_neg (by push_neg; exact ⟨h3, h4⟩)]

/-! ## Heading evaluation -/

theorem atan2_pos_y (y : ℝ) (hy : 0 < y) : atan2 y 0 = Real.pi / 2 := by
  unfold atan2
  rw [if_neg (lt_irrefl 0), if_neg (lt_irrefl 0), if_pos hy]

theorem atan2_neg_y (y : ℝ) (hy : y < 0) : atan2 y 0 = -(Real.pi / 2) := by
  unfold atan2
  rw [if_neg (lt_irrefl 0), if_neg (lt_irrefl 0), if_neg (not_lt.mpr hy.le),
    if_pos hy]

theorem pi_half_deg : Real.pi / 2 * RAD_TO_DEG = 90 := by
  rw [RAD_TO_DEG]
  have hpi := Real.pi_ne_zero
  field_simp
  ring

theorem pymod_90 : pymod (90 : ℝ) 360 = 90 := by
  unfold pymod
  rw [show ⌊(90 : ℝ) / 360⌋ = 0 from Int.floor_eq_zero_iff.mpr
    (Set.mem_Ico.mpr ⟨by norm_num, by norm_num⟩)]
  norm_num

theorem pymod_neg90 : pymod (-90 : ℝ) 360 = 270 := by
  unfold pymod
  rw [show ⌊(-90 : ℝ) / 360⌋ = -1 from Int.floor_eq_iff.mpr
    ⟨by norm_num, by norm_num⟩]
  norm_num

theorem newHeading_pos10 (s : BoidState) (i : ℕ) (j1 j2 r : ℤ)
    (hv : committedVec s i j1 j2 r = (10, 0)) :
    newHeading s i j1 j2 r = 90 := by
  rw [newHeading, hv]
  dsimp only
  rw [neg_zero, atan2_pos_y 10 (by norm_num), pi_half_deg, pymod_90]

theorem newHeading_neg10 (s : BoidState) (i : ℕ) (j1 j2 r : ℤ)
    (hv : committedVec s i j1 j2 r = (-10, 0)) :
    newHeading s i j1 j2 r = 270 := by
  rw [newHeading, hv]
  dsimp only
  rw [neg_zero, atan2_neg_y (-10) (by norm_num), neg_mul, pi_half_deg,
    pymod_neg90]

/-! ## Claim C3, scenario evaluation -/

theorem c3_find (R : RotateModel) :
    find_local_boids (c3State R).locations 0 0 = [] := by
  show find_local_boids c3Locs 0 0 = []
  decide

theorem c3_committed (R : RotateModel) :
    committedVec (c3State R) 0 0 0 0 = (10, 0) := by
  have hh : (c3State R).headings.getD 0 0 = (270 : ℝ) := by
    show (c3Hds.map fun h => (h : ℝ)).getD 0 0 = 270
    rw [headings_getD]
    norm_num [c3Hds]
  have hst : steeringRaw (c3State R) 0 0 0 0 = (-1, 0) := by
    rw [steering_isolated (c3State R) 0 0 0 0 (c3_find R), hh]
    norm_num [sin_deg_270, cos_deg_270]
  have hprev : (c3State R).prev_vecs.getD 0 (0, 0) = ((0 : ℝ), (0 : ℝ)) :=
    getD_replicate_self NUM_BOIDS 0 ((0 : ℝ), (0 : ℝ))
  have hn1 : normalize_vector (-1 : ℝ) 0 VELOCITY = (-VELOCITY, 0) :=
    normalize_vector_xneg (-1) VELOCITY (by norm_num)
  have hsm : smoothing ((0 : ℝ), (0 : ℝ)) (-VELOCITY) 0 = (-7 / 2, 0) := by
    simp only [smoothing, VELOCITY]
    norm_num
  have hn2 : normalize_vector (-7 / 2 : ℝ) 0 VELOCITY = (-VELOCITY, 0) :=
    normalize_vector_xneg (-7 / 2) VELOCITY (by norm_num)
  have hg0 : (c3State R).locations.getD 0 (0, 0) = ((1020 : ℤ), (300 : ℤ)) := by
    show c3Locs.getD 0 (0, 0) = ((1020 : ℤ), (300 : ℤ))
    decide
  have hb : bounce_at_boundary (c3State R).locations 0 (-VELOCITY) 0
      = (VELOCITY, 0) := by
    have hfl := bounce_flip_right (c3State R).locations 0 (-VELOCITY) 0
      (by rw [hg0]; norm_num [WIDTH, VELOCITY])
      (by rw [hg0]; norm_num) (by rw [hg0]; norm_num [HEIGHT])
    rw [hfl]
    norm_num
  simp only [committedVec]
  rw [hst]
  dsimp only
  rw [hn1]
  dsimp only
  rw [hprev, hsm]
  dsimp only
  rw [hn2]
  dsimp only
  rw [hb, VELOCITY]

theorem c3_rect0 (R : RotateModel) :
    (c3State R).rects.getD 0 ⟨0, 0, 10, 15⟩ = ⟨1018, 302, 15, 10⟩ := by
  show ((c3Locs.zip c3Hds).map fun p => mkInitRect R p.1 p.2).getD 0
      ⟨0, 0, 10, 15⟩ = ⟨1018, 302, 15, 10⟩
  rw [getD_zip_map _ c3Locs c3Hds 0 (0, 0) 0 _ (by decide) (by decide)]
  rw [show c3Locs.getD 0 (0, 0) = ((1020 : ℤ), (300 : ℤ)) by decide,
    show c3Hds.getD 0 0 = (270 : ℤ) by decide]
  simp only [mkInitRect]
  rw [R.size_q90 (-(((270 : ℤ)) : ℝ)) ⟨-1, by push_cast; norm_num⟩]
  norm_num

theorem c3_committedPos (R : RotateModel) :
    committedPos R (c3State R) 0 0 0 0 = (1028, 302) := by
  have hsz : rotatedSize R (c3State R) 0 0 0 0 = (15, 10) := by
    rw [rotatedSize, newHeading_pos10 (c3State R) 0 0 0 0 (c3_committed R)]
    exact R.size_q270 (-(90 : ℝ)) ⟨-1, by norm_num⟩
  rw [committedPos_eval R (c3State R) 0 0 0 0 1018 302 (10, 0)
    (by rw [c3_rect0 R, hsz]; decide) (by rw [c3_rect0 R, hsz]; decide)
    (c3_committed R)]
  dsimp only
  rw [Prod.ext_iff]
  constructor
  · exact pytrunc_eval _ 1028 (by push_cast; norm_num)
  · exact pytrunc_eval _ 302 (by push_cast; norm_num)

/-- Claim C3, counterexample: from the reachable initial scenario state
(boid 0 at `x = 1020`, heading 270), one update commits velocity `(10, 0)`
after an insufficient reflection and stores position `(1028, 302)` —
`x = 1028` is outside `[0, WIDTH]`; the resulting state is itself
reachable. -/
theorem c3_counterexample :
    Reachable R0 (update R0 (c3State R0) 0 0 0 0)
    ∧ ((update R0 (c3State R0) 0 0 0 0).locations.getD 0 (0, 0)).1 = 1028
    ∧ ¬((update R0 (c3State R0) 0 0 0 0).locations.getD 0 (0, 0)).1
        ≤ WIDTH := by
  have hre : Reachable R0 (c3State R0) :=
    Reachable.init c3Locs c3Hds (by decide) (by decide) (by decide) (by decide)
  have hstep : Reachable R0 (update R0 (c3State R0) 0 0 0 0) :=
    Reachable.step (c3State R0) 0 0 0 0 hre (by norm_num [NUM_BOIDS])
      (by norm_num) (by norm_num) (by norm_num)
  have hloc : (update R0 (c3State R0) 0 0 0 0).locations.getD 0 (0, 0)
      = (1028, 302) := by
    rw [update_locations_getD_self R0 (c3State R0) 0 0 0 0 (by decide)]
    exact c3_committedPos R0
  refine ⟨hstep, ?_, ?_⟩
  · rw [hloc]
  · rw [hloc]
    norm_num [WIDTH]

/-! ## Claim C3, amended part : staying inside the reflection margin -/

theorem normalize_abs_le (x y : ℝ) :
    |(normalize_vector x y VELOCITY).1| ≤ 10
    ∧ |(normalize_vector x y VELOCITY).2| ≤ 10 := by
  rcases normalize_vector_mag x y VELOCITY with h0 | hm
  · rw [h0]
    norm_num
  · rw [show VELOCITY ^ 2 = 100 by rw [VELOCITY]; norm_num] at hm
    constructor <;> rw [abs_le] <;> constructor <;>
      nlinarith [sq_nonneg (normalize_vector x y VELOCITY).1,
        sq_nonneg (normalize_vector x y VELOCITY).2]

theorem bounce_move_bounds (locs : List (ℤ × ℤ)) (b : ℕ) (x y : ℝ)
    (hx : |x| ≤ 10) (hy : |y| ≤ 10)
    (h1 : 0 ≤ (locs.getD b (0, 0)).1) (h2 : (locs.getD b (0, 0)).1 ≤ WIDTH - 20)
    (h3 : 0 ≤ (locs.getD b (0, 0)).2)
    (h4 : (locs.getD b (0, 0)).2 ≤ HEIGHT - 20) :
    (0 : ℝ) ≤ ((locs.getD b (0, 0)).1 : ℝ) + (bounce_at_boundary locs b x y).1
    ∧ ((locs.getD b (0, 0)).1 : ℝ) + (bounce_at_boundary locs b x y).1
        ≤ ((WIDTH - 20 : ℤ) : ℝ)
    ∧ (0 : ℝ) ≤ ((locs.getD b (0, 0)).2 : ℝ) + (bounce_at_boundary locs b x y).2
    ∧ ((locs.getD b (0, 0)).2 : ℝ) + (bounce_at_boundary locs b x y).2
        ≤ ((HEIGHT - 20 : ℤ) : ℝ) := by
  obtain ⟨hx1, hx2⟩ := abs_le.mp hx
  obtain ⟨hy1, hy2⟩ := abs_le.mp hy
  have h1r : (0 : ℝ) ≤ ((locs.getD b (0, 0)).1 : ℝ) := by exact_mod_cast h1
  have h2r : ((locs.getD b (0, 0)).1 : ℝ) ≤ 1004 := by
    have : ((locs.getD b (0, 0)).1 : ℝ) ≤ ((WIDTH - 20 : ℤ) : ℝ) := by
      exact_mod_cast h2
    rw [show ((WIDTH - 20 : ℤ) : ℝ) = 1004 by norm_num [WIDTH]] at this
    exact this
  have h3r : (0 : ℝ) ≤ ((locs.getD b (0, 0)).2 : ℝ) := by exact_mod_cast h3
  have h4r : ((locs.getD b (0, 0)).2 : ℝ) ≤ 556 := by
    have : ((locs.getD b (0, 0)).2 : ℝ) ≤ ((HEIGHT - 20 : ℤ) : ℝ) := by
      exact_mod_cast h4
    rw [show ((HEIGHT - 20 : ℤ) : ℝ) = 556 by norm_num [HEIGHT]] at this
    exact this
  simp only [bounce_at_boundary]
  rw [show ((WIDTH - 20 : ℤ) : ℝ) = 1004 by norm_num [WIDTH],
    show ((HEIGHT - 20 : ℤ) : ℝ) = 556 by norm_num [HEIGHT],
    show (WIDTH : ℝ) - 20 = 1004 by norm_num [WIDTH],
    show (HEIGHT : ℝ) - 20 = 556 by norm_num [HEIGHT]]
  refine ⟨?_, ?_, ?_, ?_⟩
  · split
    case isTrue h =>
      rcases h with h | h <;> linarith
    case isFalse h =>
      push_neg at h
      linarith [h.1]
  · split
    case isTrue h =>
      rcases h with h | h <;> linarith
    case isFalse h =>
      push_neg at h
      linarith [h.2]
  · split
    case isTrue h =>
      rcases h with h | h <;> linarith
    case isFalse h =>
      push_neg at h
      linarith [h.1]
  · split
    case isTrue h =>
      rcases h with h | h <;> linarith
    case isFalse h =>
      push_neg at h
      linarith [h.2]

theorem bounce_abs_le (locs : List (ℤ × ℤ)) (b : ℕ) (x y : ℝ)
    (hx : |x| ≤ 10) (hy : |y| ≤ 10) :
    |(bounce_at_boundary locs b x y).1| ≤ 10
    ∧ |(bounce_at_boundary locs b x y).2| ≤ 10 := by
  obtain ⟨h1, h2⟩ := bounce_cases locs b x y
  constructor
  · rcases h1 with h | h <;> rw [h]
    · exact hx
    · rw [abs_neg]
      exact hx
  · rcases h2 with h | h <;> rw [h]
    · exact hy
    · rw [abs_neg]
      exact hy

theorem committedVec_abs_le (s : BoidState) (i : ℕ) (j1 j2 r : ℤ) :
    |(committedVec s i j1 j2 r).1| ≤ 10
    ∧ |(committedVec s i j1 j2 r).2| ≤ 10 := by
  simp only [committedVec]
  exact bounce_abs_le s.locations i _ _ (normalize_abs_le _ _).1
    (normalize_abs_le _ _).2

theorem mkInitRect_coupled (R : RotateModel) (p : ℤ × ℤ) (a : ℤ) :
    10 ≤ (mkInitRect R p a).w ∧ (mkInitRect R p a).w ≤ 19
    ∧ 10 ≤ (mkInitRect R p a).h ∧ (mkInitRect R p a).h ≤ 19
    ∧ |(mkInitRect R p a).x - p.1| ≤ 4
    ∧ |(mkInitRect R p a).y - p.2| ≤ 4 := by
  have hw1 := R.size_w_lb (-(a : ℝ))
  have hw2 := R.size_w_ub (-(a : ℝ))
  have hh1 := R.size_h_lb (-(a : ℝ))
  have hh2 := R.size_h_ub (-(a : ℝ))
  simp only [mkInitRect]
  refine ⟨hw1, hw2, hh1, hh2, ?_, ?_⟩
  · rw [abs_le]
    constructor <;> omega
  · rw [abs_le]
    constructor <;> omega

theorem rectCoupled_of_reachable (R : RotateModel) (s : BoidState)
    (hs : Reachable R s) : RectCoupled s := by
  induction hs with
  | init locs hds hlen hlen2 hloc hhd =>
    refine ⟨hlen, ?_, ?_⟩
    · show ((locs.zip hds).map fun p => mkInitRect R p.1 p.2).length = NUM_BOIDS
      rw [List.length_map, List.length_zip, hlen, hlen2]
      exact Nat.min_self NUM_BOIDS
    · intro k hk
      have h1 : k < locs.length := by rw [hlen]; exact hk
      have h2 : k < hds.length := by rw [hlen2]; exact hk
      have hrk : (stateOfInit R locs hds).rects.getD k ⟨0, 0, 10, 15⟩
          = mkInitRect R (locs.getD k (0, 0)) (hds.getD k 0) :=
        getD_zip_map (fun a b => mkInitRect R a b) locs hds k (0, 0) 0
          ⟨0, 0, 10, 15⟩ h1 h2
      have hlk : (stateOfInit R locs hds).locations.getD k (0, 0)
          = locs.getD k (0, 0) := rfl
      rw [hrk, hlk]
      exact mkInitRect_coupled R (locs.getD k (0, 0)) (hds.getD k 0)
  | step s i j1 j2 r hs hi hj1 hj2 hr ih =>
    obtain ⟨hl, hrc, hco⟩ := ih
    refine ⟨?_, ?_, ?_⟩
    · simp only [update, List.length_set]
      exact hl
    · simp only [update, List.length_set]
      exact hrc
    · intro k hk
      by_cases hki : k = i
      · subst hki
        rw [update_rects_getD_self R s k j1 j2 r (by rw [hrc]; exact hk),
          update_locations_getD_self R s k j1 j2 r (by rw [hl]; exact hk)]
        refine ⟨R.size_w_lb _, R.size_w_ub _, R.size_h_lb _, R.size_h_ub _,
          ?_, ?_⟩
        · show |(committedPos R s k j1 j2 r).1
              - (committedPos R s k j1 j2 r).1| ≤ 4
          norm_num
        · show |(committedPos R s k j1 j2 r).2
              - (committedPos R s k j1 j2 r).2| ≤ 4
          norm_num
      · rw [update_rects_getD_ne R s i j1 j2 r k hki,
          update_locations_getD_ne R s i j1 j2 r k hki]
        exact hco k hk

theorem pytrunc_displacement (c d : ℤ) (v : ℝ)
    (hd : |d - c| ≤ 8) (hv : |v| ≤ 10) :
    |pytrunc ((d : ℝ) + v) - c| ≤ 19 := by
  rw [abs_le] at hd hv
  have hdl : (-8 : ℝ) ≤ (d : ℝ) - (c : ℝ) := by exact_mod_cast hd.1
  have hdr : (d : ℝ) - (c : ℝ) ≤ 8 := by exact_mod_cast hd.2
  have h1 : ((c - 19 : ℤ) : ℝ) ≤ (d : ℝ) + v := by
    push_cast
    linarith [hv.1]
  have h2 : (d : ℝ) + v ≤ ((c + 19 : ℤ) : ℝ) := by
    push_cast
    linarith [hv.2]
  have hb := pytrunc_bounds ((d : ℝ) + v) (c - 19) (c + 19) h1 h2
  rw [abs_le]
  omega

theorem update_displacement (R : RotateModel) (s : BoidState) (i : ℕ)
    (j1 j2 r : ℤ) (hc : RectCoupled s) :
    |((update R s i j1 j2 r).locations.getD i (0, 0)).1
        - (s.locations.getD i (0, 0)).1| ≤ 19
    ∧ |((update R s i j1 j2 r).locations.getD i (0, 0)).2
        - (s.locations.getD i (0, 0)).2| ≤ 19 := by
  obtain ⟨hl, hrc, hco⟩ := hc
  by_cases hi : i < NUM_BOIDS
  · obtain ⟨hw1, hw2, hh1, hh2, hox, hoy⟩ := hco i hi
    obtain ⟨hv1, hv2⟩ := committedVec_abs_le s i j1 j2 r
    have hsz1 : 10 ≤ (rotatedSize R s i j1 j2 r).1 := R.size_w_lb _
    have hsz2 : (rotatedSize R s i j1 j2 r).1 ≤ 19 := R.size_w_ub _
    have hsz3 : 10 ≤ (rotatedSize R s i j1 j2 r).2 := R.size_h_lb _
    have hsz4 : (rotatedSize R s i j1 j2 r).2 ≤ 19 := R.size_h_ub _
    rw [update_locations_getD_self R s i j1 j2 r (by rw [hl]; exact hi)]
    simp only [committedPos]
    refine ⟨pytrunc_displacement _ _ _ ?_ hv1, pytrunc_displacement _ _ _ ?_ hv2⟩
    · rw [abs_le] at hox ⊢
      constructor <;> omega
    · rw [abs_le] at hoy ⊢
      constructor <;> omega
  · push_neg at hi
    have hge : s.locations.length ≤ i := by rw [hl]; exact hi
    rw [update_locations_eq R s i j1 j2 r,
      List.getD_eq_default (s.locations.set i (committedPos R s i j1 j2 r))
        ((0 : ℤ), (0 : ℤ)) (by rw [List.length_set]; exact hge),
      List.getD_eq_default s.locations ((0 : ℤ), (0 : ℤ)) hge]
    norm_num

/-- Claim C3, amended: the boundary check itself is sound for the box it
tests — whenever an agent's stored position lies in the reflection box
`[0, WIDTH - 20] × [0, HEIGHT - 20]`, the stored position plus the committed
(real-valued) velocity stays in that box — and for every reachable state a
single update moves any agent's stored position by at most 19 px per axis
(the committed speed 10 plus at most 8 px of rect re-centering offset plus
truncation).  No containment invariant in `[0, WIDTH] × [0, HEIGHT]` holds:
the counterexample starts inside that rectangle and leaves it in one
update, because the handler's single reflection is insufficient in the
margin strip beyond `WIDTH - 20`. -/
theorem c3_position_amended (R : RotateModel) (s : BoidState) (i : ℕ)
    (j1 j2 r : ℤ) :
    ((0 ≤ (s.locations.getD i (0, 0)).1
        ∧ (s.locations.getD i (0, 0)).1 ≤ WIDTH - 20
        ∧ 0 ≤ (s.locations.getD i (0, 0)).2
        ∧ (s.locations.getD i (0, 0)).2 ≤ HEIGHT - 20) →
      ((0 : ℝ) ≤ ((s.locations.getD i (0, 0)).1 : ℝ)
          + (committedVec s i j1 j2 r).1
        ∧ ((s.locations.getD i (0, 0)).1 : ℝ) + (committedVec s i j1 j2 r).1
            ≤ ((WIDTH - 20 : ℤ) : ℝ)
        ∧ (0 : ℝ) ≤ ((s.locations.getD i (0, 0)).2 : ℝ)
            + (committedVec s i j1 j2 r).2
        ∧ ((s.locations.getD i (0, 0)).2 : ℝ) + (committedVec s i j1 j2 r).2
            ≤ ((HEIGHT - 20 : ℤ) : ℝ)))
    ∧ (Reachable R s →
      |((update R s i j1 j2 r).locations.getD i (0, 0)).1
          - (s.locations.getD i (0, 0)).1| ≤ 19
      ∧ |((update R s i j1 j2 r).locations.getD i (0, 0)).2
          - (s.locations.getD i (0, 0)).2| ≤ 19) := by
  constructor
  · rintro ⟨h1, h2, h3, h4⟩
    simp only [committedVec]
    exact bounce_move_bounds s.locations i _ _ (normalize_abs_le _ _).1
      (normalize_abs_le _ _).2 h1 h2 h3 h4
  · intro hre
    exact update_displacement R s i j1 j2 r (rectCoupled_of_reachable R s hre)

/-! ## Normalization to axis-aligned unit and `VELOCITY` vectors -/

theorem normalize_to_pos_unit (x y : ℝ) (hx : 0 < x) (hy : y = 0) :
    normalize_vector x y 1 = (1, 0) := by
  rw [hy, normalize_vector_xpos x 1 hx]

theorem normalize_to_neg_unit (x y : ℝ) (hx : x < 0) (hy : y = 0) :
    normalize_vector x y 1 = (-1, 0) := by
  rw [hy, normalize_vector_xneg x 1 hx]

/-! ## Claim C2, scenario evaluation -/

theorem c2_find0 (R : RotateModel) :
    find_local_boids (c2State R).locations 0 0 = [1] := by
  show find_local_boids c2Locs 0 0 = [1]
  decide

theorem c2_alignment0 (R : RotateModel) :
    alignment (c2State R).headings [1] = (-1, 0) := by
  have hh : (c2State R).headings.getD 1 0 = (270 : ℝ) := by
    show (c2Hds.map fun h => (h : ℝ)).getD 1 0 = 270
    rw [headings_getD]
    norm_num [c2Hds]
  simp only [alignment, List.foldl_cons, List.foldl_nil, hh]
  apply normalize_to_neg_unit <;> norm_num [sin_deg_270, cos_deg_270]

theorem c2_cohesion0 (R : RotateModel) :
    cohesion (c2State R).locations 0 [1] = some (1, 0) := by
  show cohesion c2Locs 0 [1] = some (1, 0)
  simp only [cohesion]
  rw [if_neg (by decide)]
  have hsum : ([1] : List ℕ).foldl
      (fun (p : ℤ × ℤ) i =>
        (p.1 + (c2Locs.getD i (0, 0)).1,
         p.2 + (c2Locs.getD i (0, 0)).2)) (0, 0) = (245, 300) := by
    decide
  have hg : c2Locs.getD 0 (0, 0) = ((200 : ℤ), (300 : ℤ)) := by decide
  rw [hsum, hg]
  refine congrArg some (normalize_to_pos_unit _ _ ?_ ?_) <;> norm_num

theorem c2_separation0 (R : RotateModel) :
    separation (c2State R).locations 0 [1] = (-1, 0) := by
  show separation c2Locs 0 [1] = (-1, 0)
  have hg0 : c2Locs.getD 0 (0, 0) = ((200 : ℤ), (300 : ℤ)) := by decide
  have hg1 : c2Locs.getD 1 (0, 0) = ((245 : ℤ), (300 : ℤ)) := by decide
  simp only [separation, List.foldl_cons, List.foldl_nil, hg0, hg1]
  apply normalize_to_neg_unit <;> norm_num

theorem c2_steering0 (R : RotateModel) :
    steeringRaw (c2State R) 0 0 0 0 = (-3 / 5, 0) := by
  rw [steering_neighbors (c2State R) 0 0 0 0 [1] (c2_find0 R) (by decide),
    c2_alignment0 R, c2_cohesion0 R, c2_separation0 R]
  simp only [Option.getD_some]
  norm_num [ALIGN_WEIGHT, COHESION_WEIGHT, SEPARATION_WEIGHT]

theorem c2_committed0 (R : RotateModel) :
    committedVec (c2State R) 0 0 0 0 = (-10, 0) := by
  have hprev : (c2State R).prev_vecs.getD 0 (0, 0) = ((0 : ℝ), (0 : ℝ)) :=
    getD_replicate_self NUM_BOIDS 0 ((0 : ℝ), (0 : ℝ))
  have hn1 : normalize_vector (-3 / 5 : ℝ) 0 VELOCITY = (-VELOCITY, 0) :=
    normalize_vector_xneg (-3 / 5) VELOCITY (by norm_num)
  have hsm : smoothing ((0 : ℝ), (0 : ℝ)) (-VELOCITY) 0 = (-7 / 2, 0) := by
    simp only [smoothing, VELOCITY]
    norm_num
  have hn2 : normalize_vector (-7 / 2 : ℝ) 0 VELOCITY = (-VELOCITY, 0) :=
    normalize_vector_xneg (-7 / 2) VELOCITY (by norm_num)
  have hg0 : (c2State R).locations.getD 0 (0, 0)
      = ((200 : ℤ), (300 : ℤ)) := by
    show c2Locs.getD 0 (0, 0) = ((200 : ℤ), (300 : ℤ))
    decide
  have hb : bounce_at_boundary (c2State R).locations 0 (-VELOCITY) 0
      = (-VELOCITY, 0) := by
    refine bounce_interior _ _ _ _ ?_ ?_ ?_ ?_ <;> rw [hg0] <;>
      norm_num [WIDTH, HEIGHT, VELOCITY]
  simp only [committedVec]
  rw [c2_steering0 R]
  dsimp only
  rw [hn1]
  dsimp only
  rw [hprev, hsm]
  dsimp only
  rw [hn2]
  dsimp only
  rw [hb, VELOCITY]

theorem c2_rect0 (R : RotateModel) :
    (c2State R).rects.getD 0 ⟨0, 0, 10, 15⟩ = ⟨198, 302, 15, 10⟩ := by
  show ((c2Locs.zip c2Hds).map fun p => mkInitRect R p.1 p.2).getD 0
      ⟨0, 0, 10, 15⟩ = ⟨198, 302, 15, 10⟩
  rw [getD_zip_map _ c2Locs c2Hds 0 (0, 0) 0 _ (by decide) (by decide)]
  rw [show c2Locs.getD 0 (0, 0) = ((200 : ℤ), (300 : ℤ)) by decide,
    show c2Hds.getD 0 0 = (90 : ℤ) by decide]
  simp only [mkInitRect]
  rw [R.size_q270 (-(((90 : ℤ)) : ℝ)) ⟨-1, by push_cast; norm_num⟩]
  norm_num

theorem c2_rect1 (R : RotateModel) :
    (c2State R).rects.getD 1 ⟨0, 0, 10, 15⟩ = ⟨243, 302, 15, 10⟩ := by
  show ((c2Locs.zip c2Hds).map fun p => mkInitRect R p.1 p.2).getD 1
      ⟨0, 0, 10, 15⟩ = ⟨243, 302, 15, 10⟩
  rw [getD_zip_map _ c2Locs c2Hds 1 (0, 0) 0 _ (by decide) (by decide)]
  rw [show c2Locs.getD 1 (0, 0) = ((245 : ℤ), (300 : ℤ)) by decide,
    show c2Hds.getD 1 0 = (270 : ℤ) by decide]
  simp only [mkInitRect]
  rw [R.size_q90 (-(((270 : ℤ)) : ℝ)) ⟨-1, by push_cast; norm_num⟩]
  norm_num

theorem c2_committedPos0 (R : RotateModel) :
    committedPos R (c2State R) 0 0 0 0 = (188, 302) := by
  have hsz : rotatedSize R (c2State R) 0 0 0 0 = (15, 10) := by
    rw [rotatedSize, newHeading_neg10 (c2State R) 0 0 0 0 (c2_committed0 R)]
    exact R.size_q90 (-(270 : ℝ)) ⟨-1, by norm_num⟩
  rw [committedPos_eval R (c2State R) 0 0 0 0 198 302 (-10, 0)
    (by rw [c2_rect0 R, hsz]; decide) (by rw [c2_rect0 R, hsz]; decide)
    (c2_committed0 R)]
  dsimp only
  rw [Prod.ext_iff]
  constructor
  · exact pytrunc_eval _ 188 (by push_cast; norm_num)
  · exact pytrunc_eval _ 302 (by push_cast; norm_num)

theorem c2_s1_locations (R : RotateModel) :
    (update R (c2State R) 0 0 0 0).locations = c2Locs.set 0 (188, 302) := by
  rw [update_locations_eq, c2_committedPos0 R]
  rfl

theorem c2_find1_seq : find_local_boids (c2Locs.set 0 (188, 302)) 1 1 = [] := by
  decide

theorem c2_seq_boid1 (R : RotateModel) :
    (update R (update R (c2State R) 0 0 0 0) 1 0 0 0).locations.getD 1 (0, 0)
      = (233, 302) := by
  have hfind : find_local_boids (update R (c2State R) 0 0 0 0).locations 1 1
      = [] := by
    rw [c2_s1_locations R]
    exact c2_find1_seq
  have hh : (update R (c2State R) 0 0 0 0).headings.getD 1 0 = (270 : ℝ) := by
    rw [update_headings_getD_ne R (c2State R) 0 0 0 0 1 (by decide)]
    show (c2Hds.map fun h => (h : ℝ)).getD 1 0 = 270
    rw [headings_getD]
    norm_num [c2Hds]
  have hprev : (update R (c2State R) 0 0 0 0).prev_vecs.getD 1 (0, 0)
      = ((0 : ℝ), (0 : ℝ)) := by
    rw [update_prev_vecs_getD_ne R (c2State R) 0 0 0 0 1 (by decide)]
    exact getD_replicate_self NUM_BOIDS 1 ((0 : ℝ), (0 : ℝ))
  have hst : steeringRaw (update R (c2State R) 0 0 0 0) 1 0 0 0 = (-1, 0) := by
    rw [steering_isolated (update R (c2State R) 0 0 0 0) 1 0 0 0 hfind, hh]
    norm_num [sin_deg_270, cos_deg_270]
  have hgl : (update R (c2State R) 0 0 0 0).locations.getD 1 (0, 0)
      = ((245 : ℤ), (300 : ℤ)) := by
    rw [c2_s1_locations R]
    decide
  have hn1 : normalize_vector (-1 : ℝ) 0 VELOCITY = (-VELOCITY, 0) :=
    normalize_vector_xneg (-1) VELOCITY (by norm_num)
  have hsm : smoothing ((0 : ℝ), (0 : ℝ)) (-VELOCITY) 0 = (-7 / 2, 0) := by
    simp only [smoothing, VELOCITY]
    norm_num
  have hn2 : normalize_vector (-7 / 2 : ℝ) 0 VELOCITY = (-VELOCITY, 0) :=
    normalize_vector_xneg (-7 / 2) VELOCITY (by norm_num)
  have hb : bounce_at_boundary (update R (c2State R) 0 0 0 0).locations 1
      (-VELOCITY) 0 = (-VELOCITY, 0) := by
    refine bounce_interior _ _ _ _ ?_ ?_ ?_ ?_ <;> rw [hgl] <;>
      norm_num [WIDTH, HEIGHT, VELOCITY]
  have hcom : committedVec (update R (c2State R) 0 0 0 0) 1 0 0 0
      = (-10, 0) := by
    simp only [committedVec]
    rw [hst]
    dsimp only
    rw [hn1]
    dsimp only
    rw [hprev, hsm]
    dsimp only
    rw [hn2]
    dsimp only
    rw [hb, VELOCITY]
  have hrect : (update R (c2State R) 0 0 0 0).rects.getD 1 ⟨0, 0, 10, 15⟩
      = ⟨243, 302, 15, 10⟩ := by
    rw [update_rects_getD_ne R (c2State R) 0 0 0 0 1 (by decide)]
    exact c2_rect1 R
  have hsz : rotatedSize R (update R (c2State R) 0 0 0 0) 1 0 0 0
      = (15, 10) := by
    rw [rotatedSize,
      newHeading_neg10 (update R (c2State R) 0 0 0 0) 1 0 0 0 hcom]
    exact R.size_q90 (-(270 : ℝ)) ⟨-1, by norm_num⟩
  rw [update_locations_getD_self R (update R (c2State R) 0 0 0 0) 1 0 0 0
    (by rw [c2_s1_locations R]; decide)]
  rw [committedPos_eval R (update R (c2State R) 0 0 0 0) 1 0 0 0 243 302
    (-10, 0) (by rw [hrect, hsz]; decide) (by rw [hrect, hsz]; decide) hcom]
  dsimp only
  rw [Prod.ext_iff]
  constructor
  · exact pytrunc_eval _ 233 (by push_cast; norm_num)
  · exact pytrunc_eval _ 302 (by push_cast; norm_num)

theorem c2_find1_snap (R : RotateModel) :
    find_local_boids (c2State R).locations 1 1 = [0] := by
  show find_local_boids c2Locs 1 1 = [0]
  decide

theorem c2_alignment1 (R : RotateModel) :
    alignment (c2State R).headings [0] = (1, 0) := by
  have hh : (c2State R).headings.getD 0 0 = (90 : ℝ) := by
    show (c2Hds.map fun h => (h : ℝ)).getD 0 0 = 90
    rw [headings_getD]
    norm_num [c2Hds]
  simp only [alignment, List.foldl_cons, List.foldl_nil, hh]
  apply normalize_to_pos_unit <;> norm_num [sin_deg_90, cos_deg_90]

theorem c2_cohesion1 (R : RotateModel) :
    cohesion (c2State R).locations 1 [0] = some (-1, 0) := by
  show cohesion c2Locs 1 [0] = some (-1, 0)
  simp only [cohesion]
  rw [if_neg (by decide)]
  have hsum : ([0] : List ℕ).foldl
      (fun (p : ℤ × ℤ) i =>
        (p.1 + (c2Locs.getD i (0, 0)).1,
         p.2 + (c2Locs.getD i (0, 0)).2)) (0, 0) = (200, 300) := by
    decide
  have hg : c2Locs.getD 1 (0, 0) = ((245 : ℤ), (300 : ℤ)) := by decide
  rw [hsum, hg]
  refine congrArg some (normalize_to_neg_unit _ _ ?_ ?_) <;> norm_num

theorem c2_separation1 (R : RotateModel) :
    separation (c2State R).locations 1 [0] = (1, 0) := by
  show separation c2Locs 1 [0] = (1, 0)
  have hg0 : c2Locs.getD 0 (0, 0) = ((200 : ℤ), (300 : ℤ)) := by decide
  have hg1 : c2Locs.getD 1 (0, 0) = ((245 : ℤ), (300 : ℤ)) := by decide
  simp only [separation, List.foldl_cons, List.foldl_nil, hg0, hg1]
  apply normalize_to_pos_unit <;> norm_num

theorem c2_steering1 (R : RotateModel) :
    steeringRaw (c2State R) 1 0 0 0 = (3 / 5, 0) := by
  rw [steering_neighbors (c2State R) 1 0 0 0 [0] (c2_find1_snap R) (by decide),
    c2_alignment1 R, c2_cohesion1 R, c2_separation1 R]
  simp only [Option.getD_some]
  norm_num [ALIGN_WEIGHT, COHESION_WEIGHT, SEPARATION_WEIGHT]

theorem c2_committed1 (R : RotateModel) :
    committedVec (c2State R) 1 0 0 0 = (10, 0) := by
  have hprev : (c2State R).prev_vecs.getD 1 (0, 0) = ((0 : ℝ), (0 : ℝ)) :=
    getD_replicate_self NUM_BOIDS 1 ((0 : ℝ), (0 : ℝ))
  have hn1 : normalize_vector (3 / 5 : ℝ) 0 VELOCITY = (VELOCITY, 0) :=
    normalize_vector_xpos (3 / 5) VELOCITY (by norm_num)
  have hsm : smoothing ((0 : ℝ), (0 : ℝ)) VELOCITY 0 = (7 / 2, 0) := by
    simp only [smoothing, VELOCITY]
    norm_num
  have hn2 : normalize_vector (7 / 2 : ℝ) 0 VELOCITY = (VELOCITY, 0) :=
    normalize_vector_xpos (7 / 2) VELOCITY (by norm_num)
  have hg1 : (c2State R).locations.getD 1 (0, 0)
      = ((245 : ℤ), (300 : ℤ)) := by
    show c2Locs.getD 1 (0, 0) = ((245 : ℤ), (300 : ℤ))
    decide
  have hb : bounce_at_boundary (c2State R).locations 1 VELOCITY 0
      = (VELOCITY, 0) := by
    refine bounce_interior _ _ _ _ ?_ ?_ ?_ ?_ <;> rw [hg1] <;>
      norm_num [WIDTH, HEIGHT, VELOCITY]
  simp only [committedVec]
  rw [c2_steering1 R]
  dsimp only
  rw [hn1]
  dsimp only
  rw [hprev, hsm]
  dsimp only
  rw [hn2]
  dsimp only
  rw [hb, VELOCITY]

theorem c2_snap_boid1 (R : RotateModel) :
    (update R (c2State R) 1 0 0 0).locations.getD 1 (0, 0) = (253, 302) := by
  have hsz : rotatedSize R (c2State R) 1 0 0 0 = (15, 10) := by
    rw [rotatedSize, newHeading_pos10 (c2State R) 1 0 0 0 (c2_committed1 R)]
    exact R.size_q270 (-(90 : ℝ)) ⟨-1, by norm_num⟩
  rw [update_locations_getD_self R (c2State R) 1 0 0 0
    (by show 1 < c2Locs.length; decide)]
  rw [committedPos_eval R (c2State R) 1 0 0 0 243 302 (10, 0)
    (by rw [c2_rect1 R, hsz]; decide) (by rw [c2_rect1 R, hsz]; decide)
    (c2_committed1 R)]
  dsimp only
  rw [Prod.ext_iff]
  constructor
  · exact pytrunc_eval _ 253 (by push_cast; norm_num)
  · exact pytrunc_eval _ 302 (by push_cast; norm_num)

/-! ## Claim C2, frame executions -/

theorem foldl_update_locations_getD (R : RotateModel) (l : List ℕ) (k : ℕ)
    (draws : List (ℤ × ℤ × ℤ)) (s : BoidState) (h : ∀ m ∈ l, m ≠ k) :
    ((l.foldl
      (fun st i =>
        update R st i (draws.getD i (0, 0, 0)).1 (draws.getD i (0, 0, 0)).2.1
          (draws.getD i (0, 0, 0)).2.2) s).locations.getD k (0, 0))
      = s.locations.getD k (0, 0) := by
  induction l generalizing s with
  | nil => rfl
  | cons a t ih =>
    simp only [List.foldl_cons]
    rw [ih _ (fun m hm => h m (List.mem_cons_of_mem a hm))]
    exact update_locations_getD_ne _ _ _ _ _ _ _
      (Ne.symm (h a (List.mem_cons_self a t)))

theorem c2_frameSeq (R : RotateModel) :
    (frameSeq R (c2State R) c2Draws).locations.getD 1 (0, 0) = (233, 302) := by
  rw [frameSeq]
  rw [show List.range NUM_BOIDS = 0 :: 1 :: (List.range NUM_BOIDS).drop 2 by
    decide]
  simp only [List.foldl_cons]
  have hdr : ∀ i, c2Draws.getD i (0, 0, 0) = (0, 0, 0) := fun i =>
    getD_replicate_self NUM_BOIDS i ((0 : ℤ), (0 : ℤ), (0 : ℤ))
  rw [hdr 0, hdr 1]
  dsimp only
  rw [foldl_update_locations_getD R _ _ _ _ (by decide)]
  exact c2_seq_boid1 R

theorem c2_frameSnapshot (R : RotateModel) :
    (frameSnapshot R (c2State R) c2Draws).locations.getD 1 (0, 0)
      = (253, 302) := by
  simp only [frameSnapshot]
  rw [getD_map_range NUM_BOIDS 1 _ _ (by norm_num [NUM_BOIDS])]
  have hdr : c2Draws.getD 1 (0, 0, 0) = (0, 0, 0) :=
    getD_replicate_self NUM_BOIDS 1 ((0 : ℤ), (0 : ℤ), (0 : ℤ))
  rw [hdr]
  dsimp only
  exact c2_snap_boid1 R

/-- Claim C2: for every admissible rotate-size model, from the reachable
initial scenario state, running the frame as the source does (sequential
in-place updates in index order) moves agent 1 to `(233, 302)`, while the
spec's double-buffered frame execution computed entirely from the frame
t-1 snapshot moves it to `(253, 302)`: the per-agent results differ, so the
sequential execution does not implement the frame-consistent read the spec
prescribes (agent 1's steering observed agent 0's already-updated
position). -/
theorem c2_execution_divergence :
    ∀ R : RotateModel,
      Reachable R (c2State R)
      ∧ (frameSeq R (c2State R) c2Draws).locations.getD 1 (0, 0) = (233, 302)
      ∧ (frameSnapshot R (c2State R) c2Draws).locations.getD 1 (0, 0)
          = (253, 302)
      ∧ ((233 : ℤ), (302 : ℤ)) ≠ ((253 : ℤ), (302 : ℤ)) :=
  fun R =>
    ⟨Reachable.init c2Locs c2Hds (by decide) (by decide) (by decide)
        (by decide),
     c2_frameSeq R, c2_frameSnapshot R, by decide⟩

end Boids
